import Mathlib

/-!
Verification of the ChainForensics traversal engine against its
natural-language specification.

The development shallowly embeds the Python sources
`app/core/electrs.py`, `app/core/tracer.py` and `app/core/kyc_trace.py`:

* decoded transactions (the JSON objects returned by
  `getrawtransaction(txid, verbose=True)`) become the `Tx` structure;
* monetary values are exact rationals (BTC) and integers (satoshi);
  Python's `int(value * 100_000_000)` truncation and `round(value, 8)`
  become `toSats` and `round8`;
* network effects (`getrawtransaction`, `gettxout`, Electrum history
  lookups, the per-trace wall clock) are oracles collected in
  environment structures, so every function is a pure, executable
  definition;
* the BFS loops of `trace_forward`, `trace_backward` and
  `trace_kyc_withdrawal` are fuel-indexed recursions over explicit
  state records whose fields mirror the Python locals.

Presentation-only data (log lines, `reasoning` strings, summaries,
recommendations, block heights/timestamps, `execution_time_ms`) is not
modelled; nothing below depends on it.  Exceptions raised by the
network layer are folded into the `Option`-valued oracles exactly as
the sources fold them into `None` results.
-/

namespace ChainForensics

/-- Decoded `scriptPubKey` object: optional `address` and optional `type`
(the sources read both with `.get`, using defaults `"unknown"` or `""`
at each use site). -/
structure ScriptPubKey where
  address : Option String
  scriptType : Option String
deriving Repr, DecidableEq

/-- Decoded transaction output: `value` is the BTC amount (a JSON number,
modelled as an exact rational) plus its `scriptPubKey`. -/
structure TxOut where
  value : ℚ
  scriptPubKey : ScriptPubKey
deriving Repr, DecidableEq

/-- Decoded transaction input.  `prevRef` models the `"txid"`/`"vout"`
keys (absent on coinbase inputs), `sequenceNum` models
`vin.get("sequence", 0)`, `isCoinbase` models `"coinbase" in vin`, and
`prevout` models `vin["prevout"]["scriptPubKey"]` when present. -/
structure TxIn where
  prevRef : Option (String × Nat)
  sequenceNum : Nat
  isCoinbase : Bool
  prevout : Option ScriptPubKey
deriving Repr, DecidableEq

/-- Decoded transaction: ordered inputs and outputs. -/
structure Tx where
  vin : List TxIn
  vout : List TxOut
deriving Repr, DecidableEq

/-- Python `int(_)` on a rational: truncation toward zero. -/
def pyInt (q : ℚ) : ℤ :=
  if q < 0 then -((-q).floor) else q.floor

/-- Python `int(value * 100_000_000)`: BTC amount to satoshi. -/
def toSats (v : ℚ) : ℤ :=
  pyInt (v * 100000000)

/-- Python `round(value, 8)`: rounding to 8 decimal places.  (Ties are
resolved upward here; the sources only ever round values that already
have at most 8 decimal places, where the two conventions agree.) -/
def round8 (v : ℚ) : ℚ :=
  ((v * 100000000 + 1/2).floor : ℚ) / 100000000

/-- Python truthiness of an optional string: `None` and `""` are falsy. -/
def pyTruthyStr : Option String → Bool
  | none => false
  | some s => s ≠ ""

/-- Python `max` over a list of integers (the sources only apply it to
nonempty lists; the empty case would raise). -/
def pyMaxZ : List ℤ → ℤ
  | [] => 0
  | a :: l => l.foldl max a

/-- Keys of `collections.Counter(values)` in first-occurrence order. -/
def counterKeys (values : List ℚ) : List ℚ :=
  values.foldl (fun acc v => if v ∈ acc then acc else acc ++ [v]) []

/-- Python `max(value_counts.values())`: the largest multiplicity among
the counted values (`0` for an empty counter, which the sources guard
against). -/
def maxEqual (values : List ℚ) : ℕ :=
  ((counterKeys values).map (fun v => values.count v)).foldr max 0

/-- Python `max(value_counts.keys(), key=lambda k: value_counts[k])`:
the first key, in counter order, attaining the maximal multiplicity. -/
def argmaxCount (values : List ℚ) : Option ℚ :=
  (counterKeys values).find? (fun v => values.count v = maxEqual values)

/-- Whirlpool denominations checked by the engine scorer. -/
def whirlpoolDenoms : List ℚ := [1/1000, 1/100, 1/20, 1/2]

namespace UTXOTracer

/-- Embedding of `UTXOTracer._calculate_coinjoin_score_fast`
(`app/core/tracer.py`). -/
def calculate_coinjoin_score_fast (tx : Tx) : ℚ :=
  let vouts := tx.vout
  let vins := tx.vin
  if vouts.length < 2 then 0
  else
    let values := vouts.map (fun out => round8 out.value)
    if counterKeys values = [] then 0
    else
      let max_equal := maxEqual values
      let num_outputs := vouts.length
      let num_inputs := vins.length
      if num_outputs = 5 ∧ max_equal = 5 then
        let equal_value := (argmaxCount values).getD 0
        if whirlpoolDenoms.any (fun d => decide (|equal_value - d| < 1/10000)) then
          95/100
        else 85/100
      else if max_equal ≥ 10 then 85/100
      else if max_equal ≥ 5 ∧ num_inputs ≥ 3 then 70/100
      else if max_equal ≥ 3 ∧ num_inputs ≥ 2 then 40/100
      else if ((counterKeys values).length : ℚ) / num_outputs < 3/10 ∧ num_outputs ≥ 5 then
        1/2
      else 0

/-- The scoring table of the specification (section 4.D), written from
its words: `V` is the multiset of output values rounded to 8 decimal
places, `n_out` and `n_in` the output/input counts, `max_eq` the
maximal multiplicity in `V`; the Whirlpool row asks for an equal value
(one of multiplicity 5) within `10⁻⁴` BTC of a pool denomination. -/
def coinjoin_score_table (tx : Tx) : ℚ :=
  let V := tx.vout.map (fun out => round8 out.value)
  let n_out := tx.vout.length
  let n_in := tx.vin.length
  let max_eq := maxEqual V
  if n_out < 2 then 0
  else if n_out = 5 ∧ max_eq = 5 ∧
      V.any (fun v => decide (V.count v = 5) &&
        whirlpoolDenoms.any (fun d => decide (|v - d| < 1/10000))) then 95/100
  else if n_out = 5 ∧ max_eq = 5 then 85/100
  else if max_eq ≥ 10 then 85/100
  else if max_eq ≥ 5 ∧ n_in ≥ 3 then 70/100
  else if max_eq ≥ 3 ∧ n_in ≥ 2 then 40/100
  else if ((V.dedup.length : ℚ) / n_out < 3/10) ∧ n_out ≥ 5 then 1/2
  else 0

end UTXOTracer

namespace KYCPrivacyTracer

/-- Embedding of `KYCPrivacyTracer._calculate_coinjoin_score`
(`app/core/kyc_trace.py`). -/
def calculate_coinjoin_score (tx : Tx) : ℚ :=
  let vouts := tx.vout
  let vins := tx.vin
  if vouts.length < 2 then 0
  else
    let values := vouts.map (fun out => round8 out.value)
    if counterKeys values = [] then 0
    else
      let max_equal := maxEqual values
      let num_outputs := vouts.length
      let num_inputs := vins.length
      if num_outputs = 5 ∧ max_equal = 5 then 95/100
      else if max_equal ≥ 10 then 90/100
      else if max_equal ≥ 5 ∧ num_inputs ≥ 3 then 75/100
      else if max_equal ≥ 3 ∧ num_inputs ≥ 2 then 1/2
      else 0

/-- Scoring table actually implemented by the analyser's scorer:
0.95 for five equal outputs (no denomination check), 0.90 for ten or
more equal outputs, 0.75 for `max_eq ≥ 5 ∧ n_in ≥ 3`, 0.50 for
`max_eq ≥ 3 ∧ n_in ≥ 2`, with no low-uniqueness row, else 0. -/
def analyser_score_table (tx : Tx) : ℚ :=
  let V := tx.vout.map (fun out => round8 out.value)
  let n_out := tx.vout.length
  let n_in := tx.vin.length
  let max_eq := maxEqual V
  if n_out < 2 then 0
  else if n_out = 5 ∧ max_eq = 5 then 95/100
  else if max_eq ≥ 10 then 90/100
  else if max_eq ≥ 5 ∧ n_in ≥ 3 then 75/100
  else if max_eq ≥ 3 ∧ n_in ≥ 2 then 1/2
  else 0

end KYCPrivacyTracer

namespace ElectrsClient

/-- Network oracle for the Electrum client: `getTransaction` models
`ElectrsClient.get_transaction(txid, verbose=True)` with hex-string and
error responses folded to `none`, and `getHistory` models
`ElectrsClient.get_history(address)` as the list of history-entry txids
(the client only reads the `txid` field of each entry). -/
structure Env where
  getTransaction : String → Option Tx
  getHistory : String → List String

/-- Whether the history entry `histTxid`, fetched through the oracle,
has an input referencing `(txid, vout)` (the body of the scan loop of
`find_spending_tx`; entries whose fetch fails match nothing). -/
def entrySpends (env : Env) (histTxid : String) (txid : String) (vout : Nat) : Bool :=
  match env.getTransaction histTxid with
  | none => false
  | some fullTx => fullTx.vin.any (fun vin => vin.prevRef == some (txid, vout))

/-- Embedding of `ElectrsClient.find_spending_tx` (`app/core/electrs.py`).
The duplicated inner `if` of the source is semantically idempotent and is
represented once. -/
def find_spending_tx (env : Env) (txid : String) (vout : Nat) : Option String :=
  match env.getTransaction txid with
  | none => none
  | some tx =>
    match tx.vout[vout]? with
    | none => none
    | some output =>
      if pyTruthyStr output.scriptPubKey.address then
        let address := output.scriptPubKey.address.getD ""
        let history := env.getHistory address
        if history = [] then none
        else (history.filter (fun h => h ≠ txid)).find?
          (fun h => entrySpends env h txid vout)
      else none

/-- The specification's algorithm for `find_spending_tx` (section 4.C,
steps 1-4), written from its words: `none` when the source transaction
cannot be fetched decoded, when `vout` is out of range, when the output
carries no address, or when no history entry other than the source
itself spends `(txid, vout)`; otherwise the first such entry in history
order.  (The redundant empty-history early return of the source is not
part of the specification's phrasing.) -/
def find_spending_tx_spec (env : Env) (txid : String) (vout : Nat) : Option String :=
  match env.getTransaction txid with
  | none => none
  | some tx =>
    match tx.vout[vout]? with
    | none => none
    | some output =>
      if pyTruthyStr output.scriptPubKey.address then
        ((env.getHistory (output.scriptPubKey.address.getD "")).filter
            (fun h => h ≠ txid)).find?
          (fun h => entrySpends env h txid vout)
      else none

end ElectrsClient

/-- UTXO status enumeration (`UTXOStatus` in `app/core/tracer.py`). -/
inductive UTXOStatus
  | unspent
  | spent
  | coinbase
  | unknown
deriving Repr, DecidableEq

/-- Trace-graph node (`UTXONode` in `app/core/tracer.py`); the
`block_height`/`block_time` metadata is presentation-only and not
modelled. -/
structure UTXONode where
  txid : String
  vout : Nat
  value_sats : ℤ
  address : Option String
  script_type : String
  status : UTXOStatus
  spent_by_txid : Option String := none
  spent_by_vin : Option Nat := none
  depth : Nat := 0
  coinjoin_score : ℚ := 0
deriving Repr, DecidableEq

/-- Trace-graph edge (`TraceEdge` in `app/core/tracer.py`). -/
structure TraceEdge where
  from_txid : String
  from_vout : Nat
  to_txid : String
  to_vin : Nat
  value_sats : ℤ
deriving Repr, DecidableEq

/-- Trace result (`TraceResult` in `app/core/tracer.py`);
`execution_time_ms` is wall-clock presentation data and not modelled. -/
structure TraceResult where
  start_txid : String
  start_vout : Nat
  direction : String
  max_depth : Nat
  nodes : List UTXONode := []
  edges : List TraceEdge := []
  unspent_endpoints : List UTXONode := []
  coinbase_origins : List UTXONode := []
  coinjoin_txids : List String := []
  total_transactions : Nat := 0
  total_value_traced_sats : ℤ := 0
  warnings : List String := []
  hit_limit : Bool := false
  electrs_enabled : Bool := false
deriving Repr, DecidableEq

namespace UTXOTracer

/-- Safety limit `MAX_TRANSACTIONS_PER_TRACE`. -/
def MAX_TRANSACTIONS_PER_TRACE : Nat := 200

/-- Safety limit `MAX_QUEUE_SIZE`. -/
def MAX_QUEUE_SIZE : Nat := 1000

/-- Safety limit `MAX_CONSECUTIVE_ELECTRS_FAILURES`. -/
def MAX_CONSECUTIVE_ELECTRS_FAILURES : Nat := 3

/-- Oracles consumed by one run of the traversal engine.  `getTx`
models `_get_transaction` (hex-string and error responses folded to
`none`; the per-instance cache is semantically transparent because the
oracle is a pure function).  `isUnspent` models
`rpc.get_tx_out(txid, vout)` returning a descriptor rather than `None`.
`electrsAvailable` models `_get_electrs()` yielding a client.
`findSpending` models the outcome of `_find_spending_tx_electrs`
(per-lookup timeouts and exceptions are already folded to `none` there).
`timeoutAt n` models the wall-clock deadline test at the top of the
n-th loop iteration. -/
structure Env where
  getTx : String → Option Tx
  isUnspent : String → Nat → Bool
  electrsAvailable : Bool
  findSpending : String → Nat → Option String
  timeoutAt : Nat → Bool

/-- Loop state of `trace_forward`: the result under construction plus
the Python locals `queue`, `visited`, `tx_count`,
`consecutive_electrs_failures`, `electrs_disabled`,
`electrs_lookup_count`, `electrs_success_count`; `iter` counts loop
iterations (it indexes the `timeoutAt` oracle). -/
structure FwdState where
  result : TraceResult
  queue : List (String × Nat × Nat)
  visited : List (String × Nat)
  tx_count : Nat
  consecutive_electrs_failures : Nat
  electrs_disabled : Bool
  electrs_lookup_count : Nat
  electrs_success_count : Nat
  iter : Nat

/-- Warning string emitted when Electrum is disabled after `n`
consecutive failures. -/
def electrsDisabledWarning (n : Nat) : String :=
  "Electrs disabled after " ++ toString n ++
    " consecutive failures - continuing without forward tracing"

/-- Warning string of the wall-clock timeout branch. -/
def timeoutWarning : String :=
  "Trace timeout (60s) reached - returning partial results"

/-- Warning string of the queue-truncation branch. -/
def queueWarning : String := "Queue size exceeded 1000, truncating"

/-- Warning string of the transaction-count limit. -/
def txLimitWarning : String := "Transaction limit (200) reached"

/-- Warning string emitted by `trace_forward` when Electrum is not
available at the start of the trace. -/
def electrsUnavailableWarning : String :=
  "Electrs not available - forward tracing limited. " ++
    "Can identify spent UTXOs but cannot follow to spending transaction."

/-- Electrum-lookup phase of the spent branch of `trace_forward`
(`app/core/tracer.py`, lines 403-450); the guard has already been
checked by the caller.  Returns the updated state together with the
discovered `(spending_txid, spending_vin)` pair. -/
def forwardElectrsLookup (env : Env) (ct : String) (cv : Nat) (depth : Nat)
    (value_sats : ℤ) (s : FwdState) : FwdState × Option String × Option Nat :=
  let s := { s with electrs_lookup_count := s.electrs_lookup_count + 1 }
  match env.findSpending ct cv with
  | some spending_txid =>
    let s := { s with electrs_success_count := s.electrs_success_count + 1,
                      consecutive_electrs_failures := 0 }
    match env.getTx spending_txid with
    | some spending_tx =>
      let spending_vin := spending_tx.vin.findIdx? (fun vin => vin.prevRef == some (ct, cv))
      let edge : TraceEdge :=
        { from_txid := ct, from_vout := cv, to_txid := spending_txid,
          to_vin := spending_vin.getD 0, value_sats := value_sats }
      let newItems := ((List.range spending_tx.vout.length).filter
          (fun i => (spending_txid, i) ∉ s.visited)).map (fun i => (spending_txid, i, depth + 1))
      ({ s with result := { s.result with edges := s.result.edges ++ [edge] },
                queue := s.queue ++ newItems },
       some spending_txid, spending_vin)
    | none => (s, some spending_txid, none)
  | none =>
    let s := { s with consecutive_electrs_failures := s.consecutive_electrs_failures + 1 }
    if s.consecutive_electrs_failures ≥ MAX_CONSECUTIVE_ELECTRS_FAILURES then
      ({ s with electrs_disabled := true,
                result := { s.result with warnings := s.result.warnings ++
                  [electrsDisabledWarning s.consecutive_electrs_failures] } },
       none, none)
    else (s, none, none)

/-- Spent branch of the `trace_forward` loop body
(`app/core/tracer.py`, lines 398-467): attempt the Electrum lookup when
the guard `electrs and address and depth < max_depth and not
electrs_disabled` holds, then emit the `spent` node carrying the
discovered spending txid/vin. -/
def forwardSpentBranch (env : Env) (ct : String) (cv depth : Nat) (value_sats : ℤ)
    (address : Option String) (script_type : String) (cj_score : ℚ)
    (s : FwdState) : FwdState :=
  let step :=
    if env.electrsAvailable && pyTruthyStr address &&
        decide (depth < s.result.max_depth) && !s.electrs_disabled then
      forwardElectrsLookup env ct cv depth value_sats s
    else (s, none, none)
  let (s1, spending_txid, spending_vin) := step
  let node : UTXONode :=
    { txid := ct, vout := cv, value_sats := value_sats, address := address,
      script_type := script_type, status := .spent,
      spent_by_txid := spending_txid, spent_by_vin := spending_vin,
      depth := depth, coinjoin_score := cj_score }
  { s1 with result := { s1.result with
      nodes := s1.result.nodes ++ [node],
      total_value_traced_sats := s1.result.total_value_traced_sats + value_sats } }

/-- Processing of one dequeued `(txid, vout, depth)` item of the
`trace_forward` loop (`app/core/tracer.py`, lines 340-470); the caller
has already removed the item from the queue. -/
def forwardVisit (env : Env) (ct : String) (cv : Nat) (depth : Nat) (s : FwdState) : FwdState :=
  if (ct, cv) ∈ s.visited then s
  else
    let s := { s with visited := (ct, cv) :: s.visited }
    if depth > s.result.max_depth then
      { s with result := { s.result with warnings := s.result.warnings ++
          ["Depth limit reached at " ++ ct ++ ":" ++ toString cv] } }
    else
      match env.getTx ct with
      | none =>
        { s with result := { s.result with warnings := s.result.warnings ++
            ["Transaction not found: " ++ ct] } }
      | some tx =>
        let s := { s with tx_count := s.tx_count + 1 }
        match tx.vout[cv]? with
        | none =>
          { s with result := { s.result with warnings := s.result.warnings ++
              ["Invalid vout " ++ toString cv ++ " for tx " ++ ct] } }
        | some output =>
          let value_sats := toSats output.value
          let address := output.scriptPubKey.address
          let script_type := output.scriptPubKey.scriptType.getD "unknown"
          let cj_score := calculate_coinjoin_score_fast tx
          let s := if cj_score > 7/10 ∧ ct ∉ s.result.coinjoin_txids then
              { s with result := { s.result with
                  coinjoin_txids := s.result.coinjoin_txids ++ [ct] } }
            else s
          if env.isUnspent ct cv then
            let node : UTXONode :=
              { txid := ct, vout := cv, value_sats := value_sats, address := address,
                script_type := script_type, status := .unspent, depth := depth,
                coinjoin_score := cj_score }
            { s with result := { s.result with
                nodes := s.result.nodes ++ [node],
                unspent_endpoints := s.result.unspent_endpoints ++ [node],
                total_value_traced_sats := s.result.total_value_traced_sats + value_sats } }
          else
            forwardSpentBranch env ct cv depth value_sats address script_type cj_score s

/-- The `while` loop of `trace_forward` as a fuel-indexed recursion:
one fuel unit per loop iteration. -/
def traceForwardLoop (env : Env) : Nat → FwdState → FwdState
  | 0, s => s
  | fuel + 1, s =>
    if s.queue = [] ∨ ¬ s.tx_count < MAX_TRANSACTIONS_PER_TRACE then s
    else if env.timeoutAt s.iter then
      { s with result := { s.result with
          warnings := s.result.warnings ++ [timeoutWarning], hit_limit := true } }
    else
      let s := if s.queue.length > MAX_QUEUE_SIZE then
          let r := { s.result with
            warnings := s.result.warnings ++ [queueWarning], hit_limit := true }
          { s with result := r, queue := s.queue.take MAX_QUEUE_SIZE }
        else s
      match s.queue with
      | [] => s
      | (ct, cv, depth) :: rest =>
        traceForwardLoop env fuel
          { forwardVisit env ct cv depth { s with queue := rest } with iter := s.iter + 1 }

/-- Post-loop bookkeeping of `trace_forward`. -/
def forwardFinalize (s : FwdState) : FwdState :=
  let s := if s.tx_count ≥ MAX_TRANSACTIONS_PER_TRACE then
      { s with result := { s.result with
          warnings := s.result.warnings ++ [txLimitWarning], hit_limit := true } }
    else s
  { s with result := { s.result with total_transactions := s.tx_count } }

/-- Full run of `UTXOTracer.trace_forward`, returning the final loop
state (the embedded result is the Python return value).  The clamp of
`max_depth` against the service settings happens before this point, so
`max_depth` is a parameter. -/
def traceForwardState (env : Env) (txid : String) (vout : Nat)
    (max_depth : Nat) (fuel : Nat) : FwdState :=
  let warnings0 : List String :=
    if env.electrsAvailable then [] else [electrsUnavailableWarning]
  let r0 : TraceResult :=
    { start_txid := txid, start_vout := vout, direction := "forward",
      max_depth := max_depth, electrs_enabled := env.electrsAvailable,
      warnings := warnings0 }
  forwardFinalize (traceForwardLoop env fuel
    { result := r0, queue := [(txid, vout, 0)], visited := [], tx_count := 0,
      consecutive_electrs_failures := 0, electrs_disabled := false,
      electrs_lookup_count := 0, electrs_success_count := 0, iter := 0 })

/-- Result of `UTXOTracer.trace_forward`. -/
def trace_forward (env : Env) (txid : String) (vout : Nat)
    (max_depth : Nat) (fuel : Nat) : TraceResult :=
  (traceForwardState env txid vout max_depth fuel).result

/-- Loop state of `trace_backward`. -/
structure BwdState where
  result : TraceResult
  queue : List (String × Nat)
  visited : List String
  tx_count : Nat

/-- Inner `for vin in tx.get("vin", [])` loop of `trace_backward`
(`app/core/tracer.py`, lines 579-593): for every input with a `txid`
key, append a `(prev_txid, prev_vout) → (ct, sequence)` edge with zero
value and enqueue the parent when unvisited. -/
def backwardQueueParents (ct : String) (depth : Nat) (vins : List TxIn) (s : BwdState) :
    BwdState :=
  vins.foldl (fun acc vin =>
    match vin.prevRef with
    | none => acc
    | some (prev_txid, prev_vout) =>
      let acc := { acc with result := { acc.result with
          edges := acc.result.edges ++
            [{ from_txid := prev_txid, from_vout := prev_vout,
               to_txid := ct, to_vin := vin.sequenceNum, value_sats := 0 }] } }
      if prev_txid ∈ acc.visited then acc
      else { acc with queue := acc.queue ++ [(prev_txid, depth + 1)] }) s

/-- Tail of the non-coinbase branch of the `trace_backward` loop body
(`app/core/tracer.py`, lines 577-609): enqueue parents when below the
depth limit, then emit the aggregated `spent` node at `vout = 0`. -/
def backwardEmit (ct : String) (depth : Nat) (tx : Tx) (cj_score : ℚ) (s : BwdState) :
    BwdState :=
  let s := if depth < s.result.max_depth then
      backwardQueueParents ct depth tx.vin s
    else s
  let total_output := (tx.vout.map (fun out => toSats out.value)).sum
  let node : UTXONode :=
    { txid := ct, vout := 0, value_sats := total_output, address := none,
      script_type := "transaction", status := .spent, depth := depth,
      coinjoin_score := cj_score }
  { s with result := { s.result with
      nodes := s.result.nodes ++ [node],
      total_value_traced_sats := s.result.total_value_traced_sats + total_output } }

/-- Processing of one dequeued `(txid, depth)` item of the
`trace_backward` loop (`app/core/tracer.py`, lines 531-609). -/
def backwardVisit (env : Env) (ct : String) (depth : Nat) (s : BwdState) : BwdState :=
  if ct ∈ s.visited then s
  else
    let s := { s with visited := ct :: s.visited }
    if depth > s.result.max_depth then
      { s with result := { s.result with warnings := s.result.warnings ++
          ["Depth limit reached at " ++ ct] } }
    else
      match env.getTx ct with
      | none =>
        { s with result := { s.result with warnings := s.result.warnings ++
            ["Transaction not found: " ++ ct] } }
      | some tx =>
        let s := { s with tx_count := s.tx_count + 1 }
        if tx.vin.any (fun vin => vin.isCoinbase) then
          let total_value := (tx.vout.map (fun out => toSats out.value)).sum
          let node : UTXONode :=
            { txid := ct, vout := 0, value_sats := total_value, address := none,
              script_type := "coinbase", status := .coinbase, depth := depth }
          { s with result := { s.result with
              nodes := s.result.nodes ++ [node],
              coinbase_origins := s.result.coinbase_origins ++ [node] } }
        else
          let cj_score := calculate_coinjoin_score_fast tx
          let s := if cj_score > 7/10 ∧ ct ∉ s.result.coinjoin_txids then
              { s with result := { s.result with
                  coinjoin_txids := s.result.coinjoin_txids ++ [ct] } }
            else s
          backwardEmit ct depth tx cj_score s

/-- The `while` loop of `trace_backward` as a fuel-indexed recursion
(the backward loop has no wall-clock check). -/
def traceBackwardLoop (env : Env) : Nat → BwdState → BwdState
  | 0, s => s
  | fuel + 1, s =>
    if s.queue = [] ∨ ¬ s.tx_count < MAX_TRANSACTIONS_PER_TRACE then s
    else
      let s := if s.queue.length > MAX_QUEUE_SIZE then
          let r := { s.result with
            warnings := s.result.warnings ++ [queueWarning], hit_limit := true }
          { s with result := r, queue := s.queue.take MAX_QUEUE_SIZE }
        else s
      match s.queue with
      | [] => s
      | (ct, depth) :: rest =>
        traceBackwardLoop env fuel (backwardVisit env ct depth { s with queue := rest })

/-- Post-loop bookkeeping of `trace_backward`. -/
def backwardFinalize (s : BwdState) : BwdState :=
  let s := if s.tx_count ≥ MAX_TRANSACTIONS_PER_TRACE then
      { s with result := { s.result with
          warnings := s.result.warnings ++ [txLimitWarning], hit_limit := true } }
    else s
  { s with result := { s.result with total_transactions := s.tx_count } }

/-- Full run of `UTXOTracer.trace_backward`, returning the final loop
state. -/
def traceBackwardState (env : Env) (txid : String) (max_depth : Nat) (fuel : Nat) : BwdState :=
  let r0 : TraceResult :=
    { start_txid := txid, start_vout := 0, direction := "backward",
      max_depth := max_depth, electrs_enabled := env.electrsAvailable }
  backwardFinalize (traceBackwardLoop env fuel
    { result := r0, queue := [(txid, 0)], visited := [], tx_count := 0 })

/-- Result of `UTXOTracer.trace_backward`. -/
def trace_backward (env : Env) (txid : String) (max_depth : Nat) (fuel : Nat) : TraceResult :=
  (traceBackwardState env txid max_depth fuel).result

end UTXOTracer

/-- Python `x or default` for an optional string (`None` and `""` both
fall back). -/
def pyStrOr (o : Option String) (d : String) : String :=
  if pyTruthyStr o then o.getD "" else d

namespace KYCPrivacyTracer

/-- Trail status (`TrailStatus` in `app/core/kyc_trace.py`). -/
inductive TrailStatus
  | active
  | cold
  | dead_end
  | depth_limit
  | lost
deriving Repr, DecidableEq

/-- Confidence level (`ConfidenceLevel` in `app/core/kyc_trace.py`). -/
inductive ConfidenceLevel
  | high
  | medium
  | low
  | negligible
deriving Repr, DecidableEq

/-- Path node (`PathNode` in `app/core/kyc_trace.py`); block metadata is
presentation-only and not modelled. -/
structure PathNode where
  txid : String
  vout : Nat
  value_sats : ℤ
  address : Option String
  is_coinjoin : Bool
  coinjoin_score : ℚ
  coinjoin_count_in_path : Nat
  depth : Nat
  is_change : Bool := false
  change_probability : ℚ := 0
deriving Repr, DecidableEq

/-- Probable destination (`ProbableDestination` in
`app/core/kyc_trace.py`); the `reasoning` strings are presentation-only
and not modelled. -/
structure ProbableDestination where
  address : String
  value_sats : ℤ
  confidence_score : ℚ
  confidence_level : ConfidenceLevel
  path_length : Nat
  coinjoins_passed : Nat
  trail_status : TrailStatus
  path : List PathNode
deriving Repr, DecidableEq

/-- KYC trace result (`KYCTraceResult` in `app/core/kyc_trace.py`);
`summary`, `recommendations` and `execution_time_ms` are
presentation-only and not modelled. -/
structure KYCTraceResult where
  exchange_txid : String
  destination_address : String
  original_value_sats : ℤ
  trace_depth : Nat
  probable_destinations : List ProbableDestination := []
  total_traced_sats : ℤ := 0
  total_untraceable_sats : ℤ := 0
  coinjoins_encountered : Nat := 0
  overall_privacy_score : ℚ := 0
  privacy_rating : String := "unknown"
  warnings : List String := []
  electrs_enabled : Bool := false
deriving Repr, DecidableEq

/-- Absolute depth cap `MAX_DEPTH`. -/
def MAX_DEPTH : Nat := 15

/-- Safety limit `MAX_TRANSACTIONS`. -/
def MAX_TRANSACTIONS : Nat := 300

/-- Safety limit `MAX_QUEUE_SIZE`. -/
def MAX_QUEUE_SIZE : Nat := 1000

/-- Per-transaction CoinJoin threshold `COINJOIN_THRESHOLD` (the
analyser compares with `≥`). -/
def COINJOIN_THRESHOLD : ℚ := 7/10

/-- Cold-trail limit `MAX_COINJOINS_BEFORE_COLD`. -/
def MAX_COINJOINS_BEFORE_COLD : Nat := 2

/-- Depth of `DEPTH_PRESETS.get(depth_preset, DEPTH_PRESETS["standard"])`. -/
def depthForPreset (preset : String) : Nat :=
  if preset = "quick" then 3
  else if preset = "standard" then 6
  else if preset = "deep" then 10
  else if preset = "thorough" then 15
  else 6

/-- Embedding of `KYCPrivacyTracer._detect_change_output`
(`app/core/kyc_trace.py`, lines 292-345).  The `original_value`
parameter is unused, as in the source.  The float test
`(value_btc * 1000) % 1 == 0` is read exactly: the satoshi value is a
multiple of 100000 (0.001 BTC). -/
def detect_change_output (tx : Tx) (input_addresses : List String)
    (output_idx : Nat) (original_value : ℤ) : Bool × ℚ :=
  match tx.vout[output_idx]? with
  | none => (false, 0)
  | some output =>
    let output_value := toSats output.value
    let output_address := output.scriptPubKey.address
    let output_type := output.scriptPubKey.scriptType.getD ""
    let p1 : ℚ :=
      if pyTruthyStr output_address ∧ output_address.getD "" ∈ input_addresses then 2/5 else 0
    let input_types := tx.vin.filterMap (fun vin => vin.prevout.map (fun p => p.scriptType.getD ""))
    let p2 : ℚ := if output_type ∈ input_types then 1/10 else 0
    let is_round := output_value % 100000 = 0
    let p3 : ℚ := if ¬ is_round then 3/20 else 0
    let max_output := pyMaxZ (tx.vout.map (fun v => toSats v.value))
    let p4 : ℚ := if output_value < max_output then 1/10 else 0
    let p5 : ℚ := if output_idx = tx.vout.length - 1 then 1/20 else 0
    let probability := p1 + p2 + p3 + p4 + p5
    (probability > 3/10, min probability (19/20))

/-- Change-detection table of the specification (section 4.F), from its
words: weighted sum of the five heuristics, probability
`min(sum, 0.95)`, and `is_change` exactly when the (returned)
probability exceeds 0.3.  "The output's address is in the set of input
addresses" presumes real (nonempty) address strings, so the comparison
theorem assumes `"" ∉ input_addresses`. -/
def change_output_table (tx : Tx) (input_addresses : List String)
    (output_idx : Nat) : Bool × ℚ :=
  match tx.vout[output_idx]? with
  | none => (false, 0)
  | some output =>
    let sats := toSats output.value
    let w1 : ℚ :=
      if output.scriptPubKey.address.any (fun a => decide (a ∈ input_addresses)) then 2/5 else 0
    let w2 : ℚ :=
      if output.scriptPubKey.scriptType.getD "" ∈
          tx.vin.filterMap (fun vin => vin.prevout.map (fun p => p.scriptType.getD "")) then
        1/10
      else 0
    let w3 : ℚ := if ¬ sats % 100000 = 0 then 3/20 else 0
    let w4 : ℚ := if sats < pyMaxZ (tx.vout.map (fun v => toSats v.value)) then 1/10 else 0
    let w5 : ℚ := if output_idx = tx.vout.length - 1 then 1/20 else 0
    let probability := min (w1 + w2 + w3 + w4 + w5) (19/20)
    (probability > 3/10, probability)

/-- Embedding of `KYCPrivacyTracer._calculate_path_confidence`
(`app/core/kyc_trace.py`, lines 347-412); the reasoning strings are not
modelled. -/
def calculate_path_confidence (path : List PathNode) (original_value : ℤ) : ℚ :=
  if path = [] then 0
  else
    let path_length := path.length
    let c1 : ℚ :=
      if path_length = 1 then 1
      else if path_length ≤ 3 then 1 * (9/10)
      else if path_length ≤ 6 then 1 * (7/10)
      else 1 * (1/2)
    let coinjoins := (path.filter (fun n => n.is_coinjoin)).length
    let c2 : ℚ :=
      if coinjoins = 0 then c1
      else if coinjoins = 1 then c1 * (2/5)
      else c1 * (1/10)
    let final_value := ((path.map (fun n => n.value_sats)).getLast?).getD 0
    let value_frac : ℚ := (final_value : ℚ) / ((max original_value 1 : ℤ) : ℚ)
    let c3 : ℚ :=
      if value_frac > 9/10 then c2
      else if value_frac > 1/2 then c2 * (4/5)
      else if value_frac > 1/10 then c2 * (3/5)
      else c2 * (2/5)
    let change_nodes := path.filter (fun n => n.is_change)
    let c4 : ℚ :=
      if change_nodes ≠ [] then
        c3 * (7/10 + 3/10 *
          ((change_nodes.map (fun n => n.change_probability)).sum / (change_nodes.length : ℚ)))
      else c3
    min (max c4 0) 1

/-- Embedding of `KYCPrivacyTracer._get_confidence_level`
(`app/core/kyc_trace.py`, lines 414-423). -/
def get_confidence_level (score : ℚ) : ConfidenceLevel :=
  if score ≥ 7/10 then ConfidenceLevel.high
  else if score ≥ 2/5 then ConfidenceLevel.medium
  else if score ≥ 1/5 then ConfidenceLevel.low
  else ConfidenceLevel.negligible

/-- Network oracles consumed by one run of the analyser: `getTx` models
`_get_transaction`, `isUnspent` models `rpc.get_tx_out` returning a
descriptor, `electrsAvailable` models `_get_electrs()` yielding a
client, and `getHistory` models `electrs.get_history(address)` as the
history-entry txids. -/
structure Env where
  getTx : String → Option Tx
  isUnspent : String → Nat → Bool
  electrsAvailable : Bool
  getHistory : String → List String

/-- Embedding of `KYCPrivacyTracer._find_spending_tx`
(`app/core/kyc_trace.py`, lines 425-455): scan the address history,
skipping the source transaction, for the first entry whose fetched
transaction has an input referencing `(txid, vout)`.  History-fetch
exceptions (which only bump a warning counter) are not modelled. -/
def find_spending_tx (env : Env) (txid : String) (vout : Nat) (address : String) :
    Option String :=
  if ¬ env.electrsAvailable then none
  else
    ((env.getHistory address).filter (fun h => h ≠ txid)).find? (fun h =>
      match env.getTx h with
      | none => false
      | some full_tx => full_tx.vin.any (fun vin => vin.prevRef == some (txid, vout)))

/-- Queue frame of the KYC BFS:
`(txid, vout, depth, cj_count, path, tracked_value)`. -/
structure Frame where
  txid : String
  vout : Nat
  depth : Nat
  cj_count : Nat
  path : List PathNode
  tracked_value : ℤ
deriving Repr, DecidableEq

/-- Loop state of `trace_kyc_withdrawal`: the result under construction
plus the locals `queue`, `visited`, `destinations`, `tx_count` and the
`coinjoin_txids` set (a duplicate-free list here). -/
structure KState where
  result : KYCTraceResult
  queue : List Frame
  visited : List (String × Nat)
  destinations : List ProbableDestination
  tx_count : Nat
  coinjoin_txids : List String

/-- Terminal-classification tail of the `trace_kyc_withdrawal` loop body
(`app/core/kyc_trace.py`, lines 625-715): cold-trail check, unspent
check, and the spent-output follow-up with its three `lost`/enqueue
outcomes. -/
def kycEmit (env : Env) (f : Frame) (address : Option String) (value_sats : ℤ)
    (current_cj_count : Nat) (current_path : List PathNode) (s : KState) : KState :=
  if current_cj_count ≥ MAX_COINJOINS_BEFORE_COLD then
    let conf_score := calculate_path_confidence current_path s.result.original_value_sats
    let dest : ProbableDestination :=
      { address := pyStrOr address "unknown", value_sats := value_sats,
        confidence_score := conf_score,
        confidence_level := get_confidence_level conf_score,
        path_length := current_path.length, coinjoins_passed := current_cj_count,
        trail_status := TrailStatus.cold, path := current_path }
    { s with destinations := s.destinations ++ [dest],
             result := { s.result with total_untraceable_sats :=
               s.result.total_untraceable_sats + value_sats } }
  else if env.isUnspent f.txid f.vout then
    let conf_score := calculate_path_confidence current_path s.result.original_value_sats
    let dest : ProbableDestination :=
      { address := pyStrOr address "unknown", value_sats := value_sats,
        confidence_score := conf_score,
        confidence_level := get_confidence_level conf_score,
        path_length := current_path.length, coinjoins_passed := current_cj_count,
        trail_status := TrailStatus.dead_end, path := current_path }
    { s with destinations := s.destinations ++ [dest],
             result := { s.result with total_traced_sats :=
               s.result.total_traced_sats + value_sats } }
  else
    if env.electrsAvailable && pyTruthyStr address then
      match find_spending_tx env f.txid f.vout (address.getD "") with
      | some spending_txid =>
        match env.getTx spending_txid with
        | some spending_tx =>
          let newFrames := ((spending_tx.vout.enum.filter
              (fun p => (spending_txid, p.1) ∉ s.visited)).map (fun p =>
            { txid := spending_txid, vout := p.1, depth := f.depth + 1,
              cj_count := current_cj_count, path := current_path,
              tracked_value := toSats p.2.value : Frame }))
          { s with queue := s.queue ++ newFrames }
        | none => s
      | none =>
        let conf_score := calculate_path_confidence current_path s.result.original_value_sats
        let dest : ProbableDestination :=
          { address := pyStrOr address "unknown", value_sats := value_sats,
            confidence_score := conf_score * (3/10),
            confidence_level := ConfidenceLevel.low,
            path_length := current_path.length, coinjoins_passed := current_cj_count,
            trail_status := TrailStatus.lost, path := current_path }
        { s with destinations := s.destinations ++ [dest] }
    else
      let conf_score := calculate_path_confidence current_path s.result.original_value_sats
      let dest : ProbableDestination :=
        { address := pyStrOr address "unknown", value_sats := value_sats,
          confidence_score := conf_score * (1/2),
          confidence_level := get_confidence_level (conf_score * (1/2)),
          path_length := current_path.length, coinjoins_passed := current_cj_count,
          trail_status := TrailStatus.lost, path := current_path }
      { s with destinations := s.destinations ++ [dest] }

/-- Per-transaction part of the `trace_kyc_withdrawal` loop body
(`app/core/kyc_trace.py`, lines 566-715): output decoding, CoinJoin
scoring and bookkeeping, change detection, path extension, and the
terminal classification via `kycEmit`. -/
def kycVisitTx (env : Env) (f : Frame) (tx : Tx) (s : KState) : KState :=
  match tx.vout[f.vout]? with
  | none => s
  | some output =>
    let value_sats := toSats output.value
    let address := output.scriptPubKey.address
    let cj_score := calculate_coinjoin_score tx
    let is_coinjoin := cj_score ≥ COINJOIN_THRESHOLD
    let current_cj_count := if is_coinjoin then f.cj_count + 1 else f.cj_count
    let input_addresses := tx.vin.filterMap (fun vin =>
      vin.prevout.bind (fun p => if pyTruthyStr p.address then p.address else none))
    let change := detect_change_output tx input_addresses f.vout f.tracked_value
    let node : PathNode :=
      { txid := f.txid, vout := f.vout, value_sats := value_sats, address := address,
        is_coinjoin := is_coinjoin, coinjoin_score := cj_score,
        coinjoin_count_in_path := current_cj_count, depth := f.depth,
        is_change := change.1, change_probability := change.2 }
    let current_path := f.path ++ [node]
    kycEmit env f address value_sats current_cj_count current_path
      (if is_coinjoin ∧ f.txid ∉ s.coinjoin_txids then
        { s with coinjoin_txids := s.coinjoin_txids ++ [f.txid] }
      else s)

/-- Body of the `trace_kyc_withdrawal` loop after the visited check
(`app/core/kyc_trace.py`, lines 544-715): depth-limit handling and the
transaction fetch; `s` is the state with the frame already marked
visited. -/
def kycVisitBody (env : Env) (f : Frame) (s : KState) : KState :=
  if f.depth > s.result.trace_depth then
    if f.path = [] then s
    else
      let conf_score := calculate_path_confidence f.path s.result.original_value_sats
      let last_address : Option String :=
        match f.path.getLast? with
        | some n => n.address
        | none => none
      let dest : ProbableDestination :=
        { address := pyStrOr last_address "unknown",
          value_sats := f.tracked_value,
          confidence_score := conf_score * (1/2),
          confidence_level := get_confidence_level (conf_score * (1/2)),
          path_length := f.path.length,
          coinjoins_passed := f.cj_count,
          trail_status := TrailStatus.depth_limit,
          path := f.path }
      { s with destinations := s.destinations ++ [dest] }
  else
    match env.getTx f.txid with
    | none => s
    | some tx => kycVisitTx env f tx { s with tx_count := s.tx_count + 1 }

/-- Processing of one dequeued frame of the `trace_kyc_withdrawal` loop
(`app/core/kyc_trace.py`, lines 537-715); the caller has already
removed the frame from the queue. -/
def kycVisit (env : Env) (f : Frame) (s : KState) : KState :=
  if (f.txid, f.vout) ∈ s.visited then s
  else kycVisitBody env f { s with visited := (f.txid, f.vout) :: s.visited }

/-- The `while` loop of `trace_kyc_withdrawal` as a fuel-indexed
recursion. -/
def kycLoop (env : Env) : Nat → KState → KState
  | 0, s => s
  | fuel + 1, s =>
    if s.queue = [] ∨ ¬ s.tx_count < MAX_TRANSACTIONS then s
    else
      let s := if s.queue.length > MAX_QUEUE_SIZE then
          let r := { s.result with warnings := s.result.warnings ++
            ["Queue size exceeded, some paths truncated"] }
          { s with result := r, queue := s.queue.take MAX_QUEUE_SIZE }
        else s
      match s.queue with
      | [] => s
      | f :: rest => kycLoop env fuel (kycVisit env f { s with queue := rest })

/-- Stable insertion of a destination into a list already sorted by
descending confidence score. -/
def insertByConfidence (d : ProbableDestination) :
    List ProbableDestination → List ProbableDestination
  | [] => [d]
  | x :: xs =>
    if x.confidence_score ≥ d.confidence_score then x :: insertByConfidence d xs
    else d :: x :: xs

/-- Model of `destinations.sort(key=lambda d: d.confidence_score,
reverse=True)`: a stable descending sort by confidence score. -/
def sortDestinations (l : List ProbableDestination) : List ProbableDestination :=
  l.foldl (fun acc d => insertByConfidence d acc) []

/-- Embedding of `KYCPrivacyTracer._calculate_overall_privacy`
(`app/core/kyc_trace.py`, lines 740-771). -/
def calculate_overall_privacy (r : KYCTraceResult) : ℚ :=
  if r.probable_destinations = [] then 100
  else
    let f1 : ℚ :=
      if r.original_value_sats > 0 then
        ((r.total_untraceable_sats : ℚ) / (r.original_value_sats : ℚ)) * 40
      else 0
    let f2 : ℚ :=
      if r.coinjoins_encountered ≥ 2 then 30
      else if r.coinjoins_encountered = 1 then 15
      else 0
    let high_conf := r.probable_destinations.filter
      (fun d => decide (d.confidence_level = ConfidenceLevel.high))
    let f3 : ℚ := if high_conf = [] then 20 else if high_conf.length = 1 then 5 else 0
    let avg_path_length : ℚ :=
      ((r.probable_destinations.map (fun d => (d.path_length : ℚ))).sum) /
        ((max r.probable_destinations.length 1 : ℕ) : ℚ)
    let f4 : ℚ := min (avg_path_length * 2) 10
    min (f1 + f2 + f3 + f4) 100

/-- Embedding of `KYCPrivacyTracer._get_privacy_rating`
(`app/core/kyc_trace.py`, lines 773-784). -/
def get_privacy_rating (score : ℚ) : String :=
  if score ≥ 80 then "excellent"
  else if score ≥ 60 then "good"
  else if score ≥ 40 then "moderate"
  else if score ≥ 20 then "poor"
  else "very_poor"

/-- Satoshi total of destinations whose trail went cold (the
specification's `untraceable`). -/
def coldSats (dests : List ProbableDestination) : ℤ :=
  ((dests.filter (fun d => decide (d.trail_status = TrailStatus.cold))).map
    (fun d => d.value_sats)).sum

/-- Privacy-score formula of the specification (section 4.F), from its
words: `100` for an empty destination set, otherwise the sum of
`40 × untraceable/original` (untraceable summed over cold terminals),
the CoinJoin points, the high-confidence points and
`min(10, 2 × mean path length)`, clamped to at most 100. -/
def overall_privacy_table (r : KYCTraceResult) : ℚ :=
  if r.probable_destinations = [] then 100
  else
    let untraceable : ℚ := (coldSats r.probable_destinations : ℚ)
    let f1 : ℚ := 40 * (untraceable / (r.original_value_sats : ℚ))
    let f2 : ℚ :=
      if r.coinjoins_encountered ≥ 2 then 30
      else if r.coinjoins_encountered = 1 then 15
      else 0
    let highs := (r.probable_destinations.filter
      (fun d => decide (d.confidence_level = ConfidenceLevel.high))).length
    let f3 : ℚ := if highs = 0 then 20 else if highs = 1 then 5 else 0
    let mean_path : ℚ :=
      ((r.probable_destinations.map (fun d => (d.path_length : ℚ))).sum) /
        (r.probable_destinations.length : ℚ)
    let f4 : ℚ := min 10 (2 * mean_path)
    min (f1 + f2 + f3 + f4) 100

/-- Seed search of `trace_kyc_withdrawal`: index and satoshi value of
the first output of the exchange transaction whose address equals the
destination address. -/
def findSeed (tx : Tx) (destination_address : String) : Option (Nat × ℤ) :=
  (tx.vout.enum.find? (fun p => p.2.scriptPubKey.address == some destination_address)).map
    (fun p => (p.1, toSats p.2.value))

/-- Embedding of `KYCPrivacyTracer.trace_kyc_withdrawal`
(`app/core/kyc_trace.py`, lines 457-738). -/
def trace_kyc_withdrawal (env : Env) (exchange_txid : String)
    (destination_address : String) (depth_preset : String) (fuel : Nat) : KYCTraceResult :=
  let max_depth := min (depthForPreset depth_preset) MAX_DEPTH
  let r0 : KYCTraceResult :=
    { exchange_txid := exchange_txid, destination_address := destination_address,
      original_value_sats := 0, trace_depth := max_depth,
      electrs_enabled := env.electrsAvailable,
      warnings := if env.electrsAvailable then []
        else ["Electrs not available - forward tracing will be limited"] }
  match env.getTx exchange_txid with
  | none => { r0 with warnings := r0.warnings ++ ["Transaction not found: " ++ exchange_txid] }
  | some tx =>
    match findSeed tx destination_address with
    | none =>
      { r0 with warnings := r0.warnings ++ ["Destination address " ++ destination_address ++
          " not found in transaction outputs"] }
    | some (start_vout, start_value) =>
      let r1 := { r0 with original_value_sats := start_value }
      let f0 : Frame :=
        { txid := exchange_txid, vout := start_vout, depth := 0,
          cj_count := 0, path := [], tracked_value := start_value }
      let s0 : KState :=
        { result := r1, queue := [f0],
          visited := [], destinations := [], tx_count := 0, coinjoin_txids := [] }
      let sf := kycLoop env fuel s0
      let r2 := { sf.result with
        probable_destinations := sortDestinations sf.destinations,
        coinjoins_encountered := sf.coinjoin_txids.length }
      let r3 := { r2 with overall_privacy_score := calculate_overall_privacy r2 }
      { r3 with privacy_rating := get_privacy_rating r3.overall_privacy_score }

/-- Checker for the amended confidence-level claim: the stored level is
the threshold mapping of the stored score, except that a `lost`
destination may carry the hardcoded `low` level. -/
def destLevelOk (d : ProbableDestination) : Bool :=
  decide (d.confidence_level = get_confidence_level d.confidence_score) ||
    (decide (d.trail_status = TrailStatus.lost) &&
      decide (d.confidence_level = ConfidenceLevel.low))

end KYCPrivacyTracer

/-- The claim's reading of a trace edge, as an executable check: the
consumed output `(from_txid, from_vout)` exists and carries the edge's
satoshi value, and input number `to_vin` of the spending transaction
references the consumed output. -/
def edgeClaimCheck (getTx : String → Option Tx) (e : TraceEdge) : Bool :=
  (match getTx e.from_txid with
   | some tx =>
     match tx.vout[e.from_vout]? with
     | some out => e.value_sats == toSats out.value
     | none => false
   | none => false) &&
  (match getTx e.to_txid with
   | some stx =>
     match stx.vin[e.to_vin]? with
     | some vin => vin.prevRef == some (e.from_txid, e.from_vout)
     | none => false
   | none => false)

/-- What forward-trace edges actually satisfy: the value is the satoshi
value of the consumed output, and `to_vin` is the first input of the
spending transaction referencing the consumed output when one exists,
and 0 otherwise. -/
def ForwardEdgeOk (getTx : String → Option Tx) (e : TraceEdge) : Prop :=
  (∃ tx out, getTx e.from_txid = some tx ∧ tx.vout[e.from_vout]? = some out ∧
    e.value_sats = toSats out.value) ∧
  (∃ stx, getTx e.to_txid = some stx ∧
    e.to_vin = (stx.vin.findIdx?
      (fun vin => vin.prevRef == some (e.from_txid, e.from_vout))).getD 0)

/-- What backward-trace edges actually satisfy: the value is always 0
and `to_vin` is the referencing input's sequence number. -/
def BackwardEdgeOk (getTx : String → Option Tx) (e : TraceEdge) : Prop :=
  e.value_sats = 0 ∧
  ∃ tx, getTx e.to_txid = some tx ∧ ∃ vin ∈ tx.vin,
    vin.prevRef = some (e.from_txid, e.from_vout) ∧ e.to_vin = vin.sequenceNum

/-- Run invariant of the backward trace loop: `unspent_endpoints` stays
empty, every emitted node sits at `vout = 0` with status `spent` or
`coinbase`, node txids are pairwise distinct and visited, and every
edge satisfies `BackwardEdgeOk`. -/
def BwdInv (env : UTXOTracer.Env) (s : UTXOTracer.BwdState) : Prop :=
  s.result.unspent_endpoints = [] ∧
  (∀ n ∈ s.result.nodes, n.vout = 0 ∧
    (n.status = UTXOStatus.spent ∨ n.status = UTXOStatus.coinbase)) ∧
  (s.result.nodes.map (fun n => n.txid)).Nodup ∧
  (∀ t ∈ s.result.nodes.map (fun n => n.txid), t ∈ s.visited) ∧
  (∀ e ∈ s.result.edges, BackwardEdgeOk env.getTx e)

/-- Run invariant of the forward trace loop: node `(txid, vout)` pairs
are pairwise distinct and visited, and every edge satisfies
`ForwardEdgeOk`. -/
def FwdInv (env : UTXOTracer.Env) (s : UTXOTracer.FwdState) : Prop :=
  (s.result.nodes.map (fun n => (n.txid, n.vout))).Nodup ∧
  (∀ p ∈ s.result.nodes.map (fun n => (n.txid, n.vout)), p ∈ s.visited) ∧
  (∀ e ∈ s.result.edges, ForwardEdgeOk env.getTx e)

/-! Concrete fixtures used by counterexample and witness theorems. -/

/-- Output with a given BTC value, address and no script type. -/
def mkOut (v : ℚ) (a : Option String) : TxOut :=
  { value := v, scriptPubKey := { address := a, scriptType := none } }

/-- Ordinary input spending `(t, n)` with a zero sequence number. -/
def vinRef (t : String) (n : Nat) : TxIn :=
  { prevRef := some (t, n), sequenceNum := 0, isCoinbase := false, prevout := none }

/-- Transaction with one input and five equal 0.002 BTC outputs (a
non-Whirlpool denomination): the engine scorer yields 0.85, the
analyser scorer 0.95. -/
def fiveEqualTx : Tx :=
  { vin := [vinRef "x" 0], vout := List.replicate 5 (mkOut (2/1000) none) }

/-- Forward/backward tracer environment where no transaction can be
fetched. -/
def envMissing : UTXOTracer.Env :=
  { getTx := fun _ => none, isUnspent := fun _ _ => false,
    electrsAvailable := false, findSpending := fun _ _ => none,
    timeoutAt := fun _ => false }

/-- Fixture transaction `A`: two outputs, 0.1 BTC and 0.3 BTC (the
latter at address `AA`). -/
def txA9 : Tx :=
  { vin := [vinRef "z" 0], vout := [mkOut (1/10) none, mkOut (3/10) (some "AA")] }

/-- Fixture transaction `B`: spends `(A, 1)` with sequence number 7. -/
def txB9 : Tx :=
  { vin := [{ prevRef := some ("A", 1), sequenceNum := 7, isCoinbase := false,
              prevout := none }],
    vout := [mkOut (1/4) (some "BB")] }

/-- Tracer environment over `txA9`/`txB9` without Electrum (used for the
backward-edge counterexample). -/
def env9 : UTXOTracer.Env :=
  { getTx := fun t => if t = "B" then some txB9 else if t = "A" then some txA9 else none,
    isUnspent := fun _ _ => false, electrsAvailable := false,
    findSpending := fun _ _ => none, timeoutAt := fun _ => false }

/-- Tracer environment over `txA9`/`txB9` with Electrum: `(A, 1)` is
spent by `B`, whose only output is unspent. -/
def envF9 : UTXOTracer.Env :=
  { getTx := fun t => if t = "B" then some txB9 else if t = "A" then some txA9 else none,
    isUnspent := fun t n => t = "B" && n == 0, electrsAvailable := true,
    findSpending := fun t n => if t = "A" ∧ n = 1 then some "B" else none,
    timeoutAt := fun _ => false }

/-- Tracer environment whose Electrum lookups always fail. -/
def env4 : UTXOTracer.Env :=
  { getTx := fun t => if t = "A" then some txA9 else none,
    isUnspent := fun _ _ => false, electrsAvailable := true,
    findSpending := fun _ _ => none, timeoutAt := fun _ => false }

/-- Tracer environment whose Electrum lookups always report `B`. -/
def env4s : UTXOTracer.Env :=
  { getTx := fun t => if t = "A" then some txA9 else none,
    isUnspent := fun _ _ => false, electrsAvailable := true,
    findSpending := fun _ _ => some "B", timeoutAt := fun _ => false }

/-- Mid-trace forward state sitting at two consecutive Electrum
failures. -/
def s4 : UTXOTracer.FwdState :=
  { result := { start_txid := "A", start_vout := 0, direction := "forward", max_depth := 5 },
    queue := [], visited := [("A", 0)], tx_count := 1,
    consecutive_electrs_failures := 2, electrs_disabled := false,
    electrs_lookup_count := 2, electrs_success_count := 0, iter := 3 }

/-- Mid-trace forward state with Electrum already disabled. -/
def s4d : UTXOTracer.FwdState :=
  { result := { start_txid := "A", start_vout := 0, direction := "forward", max_depth := 5 },
    queue := [("A", 1, 1)], visited := [("A", 0)], tx_count := 1,
    consecutive_electrs_failures := 3, electrs_disabled := true,
    electrs_lookup_count := 3, electrs_success_count := 0, iter := 4 }

/-- KYC fixture: exchange transaction `E` paying 1 BTC to address `D`. -/
def txE6 : Tx := { vin := [], vout := [mkOut 1 (some "D")] }

/-- KYC fixture: transaction `S` spending `(E, 0)` into a 0.3 BTC output
at address `A1`. -/
def txS6 : Tx := { vin := [vinRef "E" 0], vout := [mkOut (3/10) (some "A1")] }

/-- KYC environment over `txE6`/`txS6`: the withdrawal output is spent
by `S`, whose own output is spent but has an empty history, so the
lookup fails and a `lost` destination with a hardcoded `low` level is
recorded. -/
def env6 : KYCPrivacyTracer.Env :=
  { getTx := fun t => if t = "E" then some txE6 else if t = "S" then some txS6 else none,
    isUnspent := fun _ _ => false, electrsAvailable := true,
    getHistory := fun a => if a = "D" then ["S"] else [] }

/-- KYC environment where the exchange transaction cannot be fetched
(the early-return path of `trace_kyc_withdrawal`). -/
def envK8 : KYCPrivacyTracer.Env :=
  { getTx := fun _ => none, isUnspent := fun _ _ => false,
    electrsAvailable := false, getHistory := fun _ => [] }

/-- Whether `trace_kyc_withdrawal` finds its seed: the exchange
transaction can be fetched and one of its outputs pays the destination
address. -/
def kycSeedOk (env : KYCPrivacyTracer.Env) (exchange_txid destination_address : String) :
    Bool :=
  match env.getTx exchange_txid with
  | none => false
  | some tx => (KYCPrivacyTracer.findSeed tx destination_address).isSome

/-- Invariant of the KYC loop state: every recorded destination passes
the confidence-level check and the running untraceable total equals the
satoshis of the cold destinations. -/
def KycInv (s : KYCPrivacyTracer.KState) : Prop :=
  (∀ d ∈ s.destinations, KYCPrivacyTracer.destLevelOk d = true) ∧
  s.result.total_untraceable_sats = KYCPrivacyTracer.coldSats s.destinations

/-- The single destination recorded by the `env6` run: the trail is
lost at `A1` after the history lookup fails, with the hardcoded `low`
confidence level next to a score of `0.162`. -/
def kycLostDest : KYCPrivacyTracer.ProbableDestination :=
  { address := "A1", value_sats := 30000000, confidence_score := 81/500,
    confidence_level := KYCPrivacyTracer.ConfidenceLevel.low,
    path_length := 2, coinjoins_passed := 0,
    trail_status := KYCPrivacyTracer.TrailStatus.lost,
    path := [ { txid := "E", vout := 0, value_sats := 100000000, address := some "D",
                is_coinjoin := false, coinjoin_score := 0, coinjoin_count_in_path := 0,
                depth := 0, is_change := false, change_probability := 1/20 },
              { txid := "S", vout := 0, value_sats := 30000000, address := some "A1",
                is_coinjoin := false, coinjoin_score := 0, coinjoin_count_in_path := 0,
                depth := 1, is_change := false, change_probability := 1/20 } ] }

/-! Supporting lemmas about the helper functions. -/

theorem mem_counterKeys_aux (l : List ℚ) : ∀ (acc : List ℚ) (a : ℚ),
    (a ∈ l.foldl (fun acc v => if v ∈ acc then acc else acc ++ [v]) acc) ↔ a ∈ acc ∨ a ∈ l := by
  induction l with
  | nil => simp
  | cons v t ih =>
    intro acc a
    simp only [List.foldl_cons]
    rw [ih]
    by_cases hv : v ∈ acc
    · simp only [if_pos hv, List.mem_cons]
      constructor
      · rintro (h | h)
        · exact Or.inl h
        · exact Or.inr (Or.inr h)
      · rintro (h | rfl | h)
        · exact Or.inl h
        · exact Or.inl hv
        · exact Or.inr h
    · simp only [if_neg hv, List.mem_append, List.mem_singleton, List.mem_cons]
      tauto

theorem mem_counterKeys {a : ℚ} {l : List ℚ} : a ∈ counterKeys l ↔ a ∈ l := by
  unfold counterKeys
  rw [mem_counterKeys_aux]
  simp

theorem nodup_counterKeys_aux (l : List ℚ) : ∀ acc : List ℚ, acc.Nodup →
    (l.foldl (fun acc v => if v ∈ acc then acc else acc ++ [v]) acc).Nodup := by
  induction l with
  | nil => intro acc h; simpa using h
  | cons v t ih =>
    intro acc hacc
    simp only [List.foldl_cons]
    by_cases hv : v ∈ acc
    · rw [if_pos hv]; exact ih acc hacc
    · rw [if_neg hv]
      refine ih (acc ++ [v]) ?_
      simp [List.nodup_append, hacc, hv]

theorem nodup_counterKeys (l : List ℚ) : (counterKeys l).Nodup :=
  nodup_counterKeys_aux l [] List.nodup_nil

theorem counterKeys_eq_nil_iff (l : List ℚ) : counterKeys l = [] ↔ l = [] := by
  constructor
  · intro h
    cases l with
    | nil => rfl
    | cons v t =>
      have hm : v ∈ counterKeys (v :: t) := mem_counterKeys.2 (List.mem_cons_self _ _)
      rw [h] at hm
      simp at hm
  · intro h; subst h; rfl

theorem counterKeys_length_eq_dedup_length (l : List ℚ) :
    (counterKeys l).length = l.dedup.length := by
  have hfin : (counterKeys l).toFinset = l.dedup.toFinset := by
    ext a
    simp [List.mem_toFinset, mem_counterKeys, List.mem_dedup]
  calc (counterKeys l).length
      = (counterKeys l).toFinset.card :=
        (List.toFinset_card_of_nodup (nodup_counterKeys l)).symm
    _ = l.dedup.toFinset.card := by rw [hfin]
    _ = l.dedup.length := List.toFinset_card_of_nodup l.nodup_dedup

theorem foldr_max_zero_or_mem : ∀ l : List ℕ, l.foldr max 0 = 0 ∨ l.foldr max 0 ∈ l := by
  intro l
  induction l with
  | nil => exact Or.inl rfl
  | cons a t ih =>
    simp only [List.foldr_cons]
    rcases Nat.le_total (t.foldr max 0) a with h | h
    · rw [Nat.max_eq_left h]; exact Or.inr (List.mem_cons_self _ _)
    · rw [Nat.max_eq_right h]
      rcases ih with h0 | hm
      · rw [h0] at h
        interval_cases a
        · exact Or.inl h0
      · exact Or.inr (List.mem_cons_of_mem _ hm)

theorem eq_singleton_of_nodup_all_eq {l : List ℚ} {k : ℚ} (hn : l.Nodup) (hne : l ≠ [])
    (hall : ∀ x ∈ l, x = k) : l = [k] := by
  match l with
  | [] => exact absurd rfl hne
  | [x] => rw [hall x (List.mem_singleton_self x)]
  | x :: y :: t =>
    have hx := hall x (List.mem_cons_self _ _)
    have hy := hall y (List.mem_cons_of_mem _ (List.mem_cons_self _ _))
    rw [hx, hy] at hn
    simp at hn

theorem counter_all_eq_of_max_eq_length {values : List ℚ}
    (hlen : values.length = 5) (hmax : maxEqual values = 5) :
    ∃ k, counterKeys values = [k] ∧ (∀ b ∈ values, b = k) ∧ values.count k = 5 := by
  have hmax' : ((counterKeys values).map (fun v => values.count v)).foldr max 0 = 5 := hmax
  have h5 : (5 : ℕ) ∈ (counterKeys values).map (fun v => values.count v) := by
    rcases foldr_max_zero_or_mem ((counterKeys values).map (fun v => values.count v)) with h | h
    · rw [hmax'] at h; omega
    · rwa [hmax'] at h
  obtain ⟨k, hkmem, hkcount⟩ := List.mem_map.1 h5
  have hall : ∀ b ∈ values, b = k := by
    have hcl : values.count k = values.length := by rw [hkcount, hlen]
    intro b hb
    exact (List.count_eq_length.1 hcl b hb).symm
  have hkval : k ∈ values := mem_counterKeys.1 hkmem
  refine ⟨k, ?_, hall, hkcount⟩
  exact eq_singleton_of_nodup_all_eq (nodup_counterKeys values)
    (by intro h; rw [h] at hkmem; simp at hkmem)
    (fun x hx => hall x (mem_counterKeys.1 hx))


/-! Loop-invariant infrastructure for the traversal engine. -/

theorem traceForwardLoop_inv (env : UTXOTracer.Env) (P : UTXOTracer.FwdState → Prop)
    (hvisit : ∀ ct cv d s, P s → P (UTXOTracer.forwardVisit env ct cv d s))
    (hqueue : ∀ s q, P s → P { s with queue := q })
    (hwarn : ∀ s w hl, P s → P { s with result := { s.result with warnings := s.result.warnings ++ w, hit_limit := hl } })
    (hiter : ∀ s n, P s → P { s with iter := n }) :
    ∀ fuel s, P s → P (UTXOTracer.traceForwardLoop env fuel s) := by
  intro fuel
  induction fuel with
  | zero => intro s h; exact h
  | succ n ih =>
    intro s h
    rw [UTXOTracer.traceForwardLoop]
    by_cases hstop : s.queue = [] ∨ ¬ s.tx_count < UTXOTracer.MAX_TRANSACTIONS_PER_TRACE
    · rw [if_pos hstop]; exact h
    · rw [if_neg hstop]
      by_cases hto : env.timeoutAt s.iter = true
      · rw [if_pos hto]
        exact hwarn s [UTXOTracer.timeoutWarning] true h
      · rw [if_neg hto]
        have hP1 : P (if s.queue.length > UTXOTracer.MAX_QUEUE_SIZE then
            { s with
              result := { s.result with
                warnings := s.result.warnings ++ [UTXOTracer.queueWarning],
                hit_limit := true },
              queue := s.queue.take UTXOTracer.MAX_QUEUE_SIZE }
            else s) := by
          split_ifs with htr
          · exact hqueue _ _ (hwarn s [UTXOTracer.queueWarning] true h)
          · exact h
        dsimp only
        set s1 := (if s.queue.length > UTXOTracer.MAX_QUEUE_SIZE then
            { s with
              result := { s.result with
                warnings := s.result.warnings ++ [UTXOTracer.queueWarning],
                hit_limit := true },
              queue := s.queue.take UTXOTracer.MAX_QUEUE_SIZE }
            else s) with hs1
        cases hq : s1.queue with
        | nil => exact hP1
        | cons head rest =>
          obtain ⟨ct, cv, d⟩ := head
          exact ih _ (hiter _ _ (hvisit ct cv d { s1 with queue := rest }
            (hqueue s1 rest hP1)))

theorem traceBackwardLoop_inv (env : UTXOTracer.Env) (P : UTXOTracer.BwdState → Prop)
    (hvisit : ∀ ct d s, P s → P (UTXOTracer.backwardVisit env ct d s))
    (hqueue : ∀ s q, P s → P { s with queue := q })
    (hwarn : ∀ s w hl, P s → P { s with result := { s.result with warnings := s.result.warnings ++ w, hit_limit := hl } }) :
    ∀ fuel s, P s → P (UTXOTracer.traceBackwardLoop env fuel s) := by
  intro fuel
  induction fuel with
  | zero => intro s h; exact h
  | succ n ih =>
    intro s h
    rw [UTXOTracer.traceBackwardLoop]
    by_cases hstop : s.queue = [] ∨ ¬ s.tx_count < UTXOTracer.MAX_TRANSACTIONS_PER_TRACE
    · rw [if_pos hstop]; exact h
    · rw [if_neg hstop]
      have hP1 : P (if s.queue.length > UTXOTracer.MAX_QUEUE_SIZE then
          { s with
            result := { s.result with
              warnings := s.result.warnings ++ [UTXOTracer.queueWarning],
              hit_limit := true },
            queue := s.queue.take UTXOTracer.MAX_QUEUE_SIZE }
          else s) := by
        split_ifs with htr
        · exact hqueue _ _ (hwarn s [UTXOTracer.queueWarning] true h)
        · exact h
      dsimp only
      set s1 := (if s.queue.length > UTXOTracer.MAX_QUEUE_SIZE then
          { s with
            result := { s.result with
              warnings := s.result.warnings ++ [UTXOTracer.queueWarning],
              hit_limit := true },
            queue := s.queue.take UTXOTracer.MAX_QUEUE_SIZE }
          else s) with hs1
      cases hq : s1.queue with
      | nil => exact hP1
      | cons head rest =>
        obtain ⟨ct, d⟩ := head
        exact ih _ (hvisit ct d { s1 with queue := rest } (hqueue s1 rest hP1))

theorem kycLoop_inv (env : KYCPrivacyTracer.Env) (P : KYCPrivacyTracer.KState → Prop)
    (hvisit : ∀ f s, P s → P (KYCPrivacyTracer.kycVisit env f s))
    (hqueue : ∀ s q, P s → P { s with queue := q })
    (hwarn : ∀ s w, P s →
      P { s with result := { s.result with warnings := s.result.warnings ++ w } }) :
    ∀ fuel s, P s → P (KYCPrivacyTracer.kycLoop env fuel s) := by
  intro fuel
  induction fuel with
  | zero => intro s h; exact h
  | succ n ih =>
    intro s h
    rw [KYCPrivacyTracer.kycLoop]
    by_cases hstop : s.queue = [] ∨ ¬ s.tx_count < KYCPrivacyTracer.MAX_TRANSACTIONS
    · rw [if_pos hstop]; exact h
    · rw [if_neg hstop]
      have hP1 : P (if s.queue.length > KYCPrivacyTracer.MAX_QUEUE_SIZE then
          { s with
            result := { s.result with warnings := s.result.warnings ++
              ["Queue size exceeded, some paths truncated"] },
            queue := s.queue.take KYCPrivacyTracer.MAX_QUEUE_SIZE }
          else s) := by
        split_ifs with htr
        · exact hqueue _ _ (hwarn s _ h)
        · exact h
      dsimp only
      set s1 := (if s.queue.length > KYCPrivacyTracer.MAX_QUEUE_SIZE then
          { s with
            result := { s.result with warnings := s.result.warnings ++
              ["Queue size exceeded, some paths truncated"] },
            queue := s.queue.take KYCPrivacyTracer.MAX_QUEUE_SIZE }
          else s) with hs1
      cases hq : s1.queue with
      | nil => exact hP1
      | cons f rest =>
        exact ih _ (hvisit f { s1 with queue := rest } (hqueue s1 rest hP1))

theorem backwardQueueParents_spec (ct : String) (depth : Nat) :
    ∀ (l : List TxIn) (s : UTXOTracer.BwdState),
    ∃ es qs,
      UTXOTracer.backwardQueueParents ct depth l s =
        { s with result := { s.result with edges := s.result.edges ++ es },
                 queue := s.queue ++ qs } ∧
      ∀ e ∈ es, ∃ vin ∈ l, vin.prevRef = some (e.from_txid, e.from_vout) ∧
        e.to_txid = ct ∧ e.to_vin = vin.sequenceNum ∧ e.value_sats = (0:ℤ) := by
  intro l
  induction l with
  | nil =>
    intro s
    refine ⟨[], [], ?_, by simp⟩
    simp [UTXOTracer.backwardQueueParents]
  | cons vin l ih =>
    intro s
    have hstep : UTXOTracer.backwardQueueParents ct depth (vin :: l) s =
        UTXOTracer.backwardQueueParents ct depth l
          (match vin.prevRef with
           | none => s
           | some (prev_txid, prev_vout) =>
             let acc := { s with result := { s.result with
                 edges := s.result.edges ++
                   [{ from_txid := prev_txid, from_vout := prev_vout,
                      to_txid := ct, to_vin := vin.sequenceNum, value_sats := 0 }] } }
             if prev_txid ∈ acc.visited then acc
             else { acc with queue := acc.queue ++ [(prev_txid, depth + 1)] }) := by
      rw [UTXOTracer.backwardQueueParents, UTXOTracer.backwardQueueParents, List.foldl_cons]
    rw [hstep]
    cases hpr : vin.prevRef with
    | none =>
      obtain ⟨es, qs, heq, hmem⟩ := ih s
      exact ⟨es, qs, heq, fun e he =>
        (hmem e he).elim fun v hv => ⟨v, List.mem_cons_of_mem _ hv.1, hv.2⟩⟩
    | some pr =>
      obtain ⟨pt, pv⟩ := pr
      dsimp only
      by_cases hv : pt ∈ s.visited
      · rw [if_pos hv]
        obtain ⟨es, qs, heq, hmem⟩ := ih _
        refine ⟨{ from_txid := pt, from_vout := pv, to_txid := ct,
                  to_vin := vin.sequenceNum, value_sats := 0 } :: es, qs, ?_, ?_⟩
        · rw [heq]
          simp
        · intro e he
          rcases List.mem_cons.1 he with rfl | he
          · exact ⟨vin, List.mem_cons_self _ _, hpr, rfl, rfl, rfl⟩
          · exact (hmem e he).elim fun v hv2 => ⟨v, List.mem_cons_of_mem _ hv2.1, hv2.2⟩
      · rw [if_neg hv]
        obtain ⟨es, qs, heq, hmem⟩ := ih _
        refine ⟨{ from_txid := pt, from_vout := pv, to_txid := ct,
                  to_vin := vin.sequenceNum, value_sats := 0 } :: es,
                (pt, depth + 1) :: qs, ?_, ?_⟩
        · rw [heq]
          simp
        · intro e he
          rcases List.mem_cons.1 he with rfl | he
          · exact ⟨vin, List.mem_cons_self _ _, hpr, rfl, rfl, rfl⟩
          · exact (hmem e he).elim fun v hv2 => ⟨v, List.mem_cons_of_mem _ hv2.1, hv2.2⟩

theorem backwardEmit_inv (env : UTXOTracer.Env) (ct : String) (depth : Nat) (tx : Tx)
    (cj : ℚ) (hg : env.getTx ct = some tx) (s : UTXOTracer.BwdState)
    (hu : s.result.unspent_endpoints = [])
    (hn : ∀ n ∈ s.result.nodes, n.vout = 0 ∧
      (n.status = UTXOStatus.spent ∨ n.status = UTXOStatus.coinbase))
    (hd : (s.result.nodes.map (fun n => n.txid)).Nodup)
    (hv : ∀ t ∈ s.result.nodes.map (fun n => n.txid), t ∈ s.visited)
    (hctf : ct ∉ s.result.nodes.map (fun n => n.txid))
    (hctv : ct ∈ s.visited)
    (he : ∀ e ∈ s.result.edges, BackwardEdgeOk env.getTx e) :
    BwdInv env (UTXOTracer.backwardEmit ct depth tx cj s) := by
  unfold UTXOTracer.backwardEmit
  by_cases h3 : depth < s.result.max_depth
  · rw [if_pos h3]
    obtain ⟨es, qs, heq, hmem⟩ := backwardQueueParents_spec ct depth tx.vin s
    rw [heq]
    refine ⟨hu, ?_, ?_, ?_, ?_⟩
    · intro n hmem2
      rcases List.mem_append.1 hmem2 with hmem2 | hmem2
      · exact hn n hmem2
      · rw [List.mem_singleton] at hmem2
        subst hmem2
        exact ⟨rfl, Or.inl rfl⟩
    · rw [List.map_append]
      simp only [List.map_cons, List.map_nil]
      rw [List.nodup_append]
      exact ⟨hd, List.nodup_singleton _, by simpa using hctf⟩
    · intro t ht
      rw [List.map_append] at ht
      rcases List.mem_append.1 ht with ht | ht
      · exact hv t ht
      · simp only [List.map_cons, List.map_nil, List.mem_singleton] at ht
        subst ht
        exact hctv
    · intro e hein
      rcases List.mem_append.1 hein with hein | hein
      · exact he e hein
      · obtain ⟨vin, hvin, hpr, hto, hseq, hval⟩ := hmem e hein
        exact ⟨hval, tx, by rw [hto]; exact hg, vin, hvin, hpr, hseq⟩
  · rw [if_neg h3]
    refine ⟨hu, ?_, ?_, ?_, he⟩
    · intro n hmem2
      rcases List.mem_append.1 hmem2 with hmem2 | hmem2
      · exact hn n hmem2
      · rw [List.mem_singleton] at hmem2
        subst hmem2
        exact ⟨rfl, Or.inl rfl⟩
    · rw [List.map_append]
      simp only [List.map_cons, List.map_nil]
      rw [List.nodup_append]
      exact ⟨hd, List.nodup_singleton _, by simpa using hctf⟩
    · intro t ht
      rw [List.map_append] at ht
      rcases List.mem_append.1 ht with ht | ht
      · exact hv t ht
      · simp only [List.map_cons, List.map_nil, List.mem_singleton] at ht
        subst ht
        exact hctv

theorem backwardVisit_inv (env : UTXOTracer.Env) (ct : String) (depth : Nat)
    (s : UTXOTracer.BwdState) (h : BwdInv env s) :
    BwdInv env (UTXOTracer.backwardVisit env ct depth s) := by
  obtain ⟨hu, hn, hd, hv, he⟩ := h
  unfold UTXOTracer.backwardVisit
  by_cases h1 : ct ∈ s.visited
  · rw [if_pos h1]
    exact ⟨hu, hn, hd, hv, he⟩
  · rw [if_neg h1]
    dsimp only
    have hvcons : ∀ t ∈ s.result.nodes.map (fun n => n.txid), t ∈ ct :: s.visited :=
      fun t ht => List.mem_cons_of_mem _ (hv t ht)
    have hctfresh : ct ∉ s.result.nodes.map (fun n => n.txid) :=
      fun hc => h1 (hv ct hc)
    by_cases h2 : depth > s.result.max_depth
    · rw [if_pos h2]
      exact ⟨hu, hn, hd, hvcons, he⟩
    · rw [if_neg h2]
      cases hg : env.getTx ct with
      | none => exact ⟨hu, hn, hd, hvcons, he⟩
      | some tx =>
        dsimp only
        by_cases hcb : (tx.vin.any fun vin => vin.isCoinbase) = true
        · rw [if_pos hcb]
          refine ⟨hu, ?_, ?_, ?_, he⟩
          · intro n hmem
            rcases List.mem_append.1 hmem with hmem | hmem
            · exact hn n hmem
            · rw [List.mem_singleton] at hmem
              subst hmem
              exact ⟨rfl, Or.inr rfl⟩
          · rw [List.map_append]
            simp only [List.map_cons, List.map_nil]
            rw [List.nodup_append]
            exact ⟨hd, List.nodup_singleton _, by simpa using hctfresh⟩
          · intro t ht
            rw [List.map_append] at ht
            rcases List.mem_append.1 ht with ht | ht
            · exact List.mem_cons_of_mem _ (hv t ht)
            · simp only [List.map_cons, List.map_nil, List.mem_singleton] at ht
              subst ht
              exact List.mem_cons_self _ _
        · rw [if_neg hcb]
          by_cases hcj : UTXOTracer.calculate_coinjoin_score_fast tx > 7/10 ∧
              ct ∉ s.result.coinjoin_txids
          · rw [if_pos hcj]
            exact backwardEmit_inv env ct depth tx _ hg _ hu hn hd hvcons hctfresh
              (List.mem_cons_self _ _) he
          · rw [if_neg hcj]
            exact backwardEmit_inv env ct depth tx _ hg _ hu hn hd hvcons hctfresh
              (List.mem_cons_self _ _) he

theorem backwardFinalize_frame (s : UTXOTracer.BwdState) :
    (UTXOTracer.backwardFinalize s).result.nodes = s.result.nodes ∧
    (UTXOTracer.backwardFinalize s).result.unspent_endpoints = s.result.unspent_endpoints ∧
    (UTXOTracer.backwardFinalize s).result.edges = s.result.edges ∧
    (UTXOTracer.backwardFinalize s).visited = s.visited := by
  unfold UTXOTracer.backwardFinalize
  dsimp only
  split_ifs <;> exact ⟨rfl, rfl, rfl, rfl⟩

theorem forwardFinalize_frame (s : UTXOTracer.FwdState) :
    (UTXOTracer.forwardFinalize s).result.nodes = s.result.nodes ∧
    (UTXOTracer.forwardFinalize s).result.unspent_endpoints = s.result.unspent_endpoints ∧
    (UTXOTracer.forwardFinalize s).result.edges = s.result.edges ∧
    (UTXOTracer.forwardFinalize s).visited = s.visited ∧
    (UTXOTracer.forwardFinalize s).electrs_disabled = s.electrs_disabled ∧
    (UTXOTracer.forwardFinalize s).electrs_lookup_count = s.electrs_lookup_count := by
  unfold UTXOTracer.forwardFinalize
  dsimp only
  split_ifs <;> exact ⟨rfl, rfl, rfl, rfl, rfl, rfl⟩

theorem trace_backward_loop_inv (env : UTXOTracer.Env) (txid : String)
    (max_depth fuel : Nat) :
    BwdInv env (UTXOTracer.traceBackwardLoop env fuel
      { result := { start_txid := txid, start_vout := 0, direction := "backward",
                    max_depth := max_depth, electrs_enabled := env.electrsAvailable },
        queue := [(txid, 0)], visited := [], tx_count := 0 }) := by
  refine traceBackwardLoop_inv env (BwdInv env)
    (fun ct d s h => backwardVisit_inv env ct d s h)
    (fun s q h => h) (fun s w hl h => h) fuel _ ?_
  exact ⟨rfl, by simp, by simp, by simp, by simp⟩

theorem forwardElectrsLookup_frame (env : UTXOTracer.Env) (ct : String) (cv depth : Nat)
    (v : ℤ) (s : UTXOTracer.FwdState) :
    ((UTXOTracer.forwardElectrsLookup env ct cv depth v s).1).result.nodes = s.result.nodes ∧
    ((UTXOTracer.forwardElectrsLookup env ct cv depth v s).1).result.unspent_endpoints =
      s.result.unspent_endpoints ∧
    ((UTXOTracer.forwardElectrsLookup env ct cv depth v s).1).visited = s.visited := by
  unfold UTXOTracer.forwardElectrsLookup
  cases env.findSpending ct cv with
  | none =>
    dsimp only
    split_ifs <;> exact ⟨rfl, rfl, rfl⟩
  | some stxid =>
    dsimp only
    cases env.getTx stxid with
    | none => exact ⟨rfl, rfl, rfl⟩
    | some stx => exact ⟨rfl, rfl, rfl⟩

theorem forwardElectrsLookup_edges (env : UTXOTracer.Env) (ct : String) (cv depth : Nat)
    (v : ℤ) (s : UTXOTracer.FwdState)
    (hv : ∃ tx out, env.getTx ct = some tx ∧ tx.vout[cv]? = some out ∧ v = toSats out.value)
    (he : ∀ e ∈ s.result.edges, ForwardEdgeOk env.getTx e) :
    ∀ e ∈ ((UTXOTracer.forwardElectrsLookup env ct cv depth v s).1).result.edges,
      ForwardEdgeOk env.getTx e := by
  unfold UTXOTracer.forwardElectrsLookup
  cases hf : env.findSpending ct cv with
  | none =>
    dsimp only
    split_ifs <;> exact he
  | some stxid =>
    dsimp only
    cases hgs : env.getTx stxid with
    | none => exact he
    | some stx =>
      dsimp only
      intro e hein
      rcases List.mem_append.1 hein with hein | hein
      · exact he e hein
      · rw [List.mem_singleton] at hein
        subst hein
        exact ⟨hv, stx, hgs, rfl⟩

theorem forwardElectrsLookup_count (env : UTXOTracer.Env) (ct : String) (cv depth : Nat)
    (v : ℤ) (s : UTXOTracer.FwdState) :
    ((UTXOTracer.forwardElectrsLookup env ct cv depth v s).1).electrs_lookup_count =
      s.electrs_lookup_count + 1 := by
  unfold UTXOTracer.forwardElectrsLookup
  cases env.findSpending ct cv with
  | none =>
    dsimp only
    split_ifs <;> rfl
  | some stxid =>
    dsimp only
    cases env.getTx stxid with
    | none => rfl
    | some stx => rfl

theorem pair_append_nodup (ns : List UTXONode) (node : UTXONode)
    (hd : (ns.map (fun n => (n.txid, n.vout))).Nodup)
    (hfresh : (node.txid, node.vout) ∉ ns.map (fun n => (n.txid, n.vout))) :
    ((ns ++ [node]).map (fun n => (n.txid, n.vout))).Nodup := by
  rw [List.map_append]
  simp only [List.map_cons, List.map_nil]
  rw [List.nodup_append]
  exact ⟨hd, List.nodup_singleton _, by simpa using hfresh⟩

theorem pair_append_mem (ns : List UTXONode) (node : UTXONode) (vs : List (String × Nat))
    (hv : ∀ p ∈ ns.map (fun n => (n.txid, n.vout)), p ∈ vs)
    (hm : (node.txid, node.vout) ∈ vs) :
    ∀ p ∈ (ns ++ [node]).map (fun n => (n.txid, n.vout)), p ∈ vs := by
  intro p hp
  rw [List.map_append] at hp
  rcases List.mem_append.1 hp with hp | hp
  · exact hv p hp
  · simp only [List.map_cons, List.map_nil, List.mem_singleton] at hp
    subst hp
    exact hm

theorem forwardSpentBranch_inv (env : UTXOTracer.Env) (ct : String) (cv depth : Nat)
    (vs : ℤ) (addr : Option String) (sty : String) (cj : ℚ) (s : UTXOTracer.FwdState)
    (hval : ∃ tx out, env.getTx ct = some tx ∧ tx.vout[cv]? = some out ∧ vs = toSats out.value)
    (h : FwdInv env s)
    (hfresh : (ct, cv) ∉ s.result.nodes.map (fun n => (n.txid, n.vout)))
    (hmemv : (ct, cv) ∈ s.visited) :
    FwdInv env (UTXOTracer.forwardSpentBranch env ct cv depth vs addr sty cj s) := by
  obtain ⟨hd, hv, he⟩ := h
  unfold UTXOTracer.forwardSpentBranch
  by_cases hguard : (env.electrsAvailable && pyTruthyStr addr &&
      decide (depth < s.result.max_depth) && !s.electrs_disabled) = true
  · rw [if_pos hguard]
    dsimp only
    obtain ⟨hfn, hfu, hfv⟩ := forwardElectrsLookup_frame env ct cv depth vs s
    refine ⟨?_, ?_, ?_⟩
    · rw [hfn]
      exact pair_append_nodup _ _ hd hfresh
    · rw [hfn, hfv]
      exact pair_append_mem _ _ _ hv hmemv
    · exact forwardElectrsLookup_edges env ct cv depth vs s hval he
  · rw [if_neg hguard]
    dsimp only
    refine ⟨pair_append_nodup _ _ hd hfresh, pair_append_mem _ _ _ hv hmemv, he⟩

theorem forwardVisit_inv (env : UTXOTracer.Env) (ct : String) (cv depth : Nat)
    (s : UTXOTracer.FwdState) (h : FwdInv env s) :
    FwdInv env (UTXOTracer.forwardVisit env ct cv depth s) := by
  obtain ⟨hd, hv, he⟩ := h
  unfold UTXOTracer.forwardVisit
  by_cases h1 : (ct, cv) ∈ s.visited
  · rw [if_pos h1]
    exact ⟨hd, hv, he⟩
  · rw [if_neg h1]
    dsimp only
    have hvcons : ∀ p ∈ s.result.nodes.map (fun n => (n.txid, n.vout)),
        p ∈ (ct, cv) :: s.visited :=
      fun p hp => List.mem_cons_of_mem _ (hv p hp)
    have hfresh : (ct, cv) ∉ s.result.nodes.map (fun n => (n.txid, n.vout)) :=
      fun hc => h1 (hv _ hc)
    by_cases h2 : depth > s.result.max_depth
    · rw [if_pos h2]
      exact ⟨hd, hvcons, he⟩
    · rw [if_neg h2]
      cases hg : env.getTx ct with
      | none => exact ⟨hd, hvcons, he⟩
      | some tx =>
        dsimp only
        cases hvo : tx.vout[cv]? with
        | none => exact ⟨hd, hvcons, he⟩
        | some output =>
          dsimp only
          by_cases hcj : UTXOTracer.calculate_coinjoin_score_fast tx > 7/10 ∧
              ct ∉ s.result.coinjoin_txids <;>
            [rw [if_pos hcj]; rw [if_neg hcj]] <;>
          · by_cases hu : env.isUnspent ct cv = true
            · rw [if_pos hu]
              exact ⟨pair_append_nodup _ _ hd hfresh,
                pair_append_mem _ _ _ hvcons (List.mem_cons_self _ _), he⟩
            · rw [if_neg hu]
              exact forwardSpentBranch_inv env ct cv depth _ _ _ _ _
                ⟨tx, output, hg, hvo, rfl⟩ ⟨hd, hvcons, he⟩ hfresh (List.mem_cons_self _ _)

theorem forwardSpentBranch_disabled (env : UTXOTracer.Env) (ct : String) (cv depth : Nat)
    (vs : ℤ) (addr : Option String) (sty : String) (cj : ℚ) (s : UTXOTracer.FwdState)
    (hdis : s.electrs_disabled = true) :
    (UTXOTracer.forwardSpentBranch env ct cv depth vs addr sty cj s).electrs_disabled = true ∧
    (UTXOTracer.forwardSpentBranch env ct cv depth vs addr sty cj s).electrs_lookup_count =
      s.electrs_lookup_count := by
  unfold UTXOTracer.forwardSpentBranch
  rw [if_neg (by rw [hdis]; simp)]
  exact ⟨hdis, rfl⟩

theorem forwardVisit_disabled (env : UTXOTracer.Env) (ct : String) (cv depth : Nat)
    (s : UTXOTracer.FwdState) (hdis : s.electrs_disabled = true) :
    (UTXOTracer.forwardVisit env ct cv depth s).electrs_disabled = true ∧
    (UTXOTracer.forwardVisit env ct cv depth s).electrs_lookup_count =
      s.electrs_lookup_count := by
  unfold UTXOTracer.forwardVisit
  by_cases h1 : (ct, cv) ∈ s.visited
  · rw [if_pos h1]
    exact ⟨hdis, rfl⟩
  · rw [if_neg h1]
    dsimp only
    by_cases h2 : depth > s.result.max_depth
    · rw [if_pos h2]
      exact ⟨hdis, rfl⟩
    · rw [if_neg h2]
      cases hg : env.getTx ct with
      | none => exact ⟨hdis, rfl⟩
      | some tx =>
        dsimp only
        cases hvo : tx.vout[cv]? with
        | none => exact ⟨hdis, rfl⟩
        | some output =>
          dsimp only
          by_cases hcj : UTXOTracer.calculate_coinjoin_score_fast tx > 7/10 ∧
              ct ∉ s.result.coinjoin_txids <;>
            [rw [if_pos hcj]; rw [if_neg hcj]] <;>
          · by_cases hu : env.isUnspent ct cv = true
            · rw [if_pos hu]
              exact ⟨hdis, rfl⟩
            · rw [if_neg hu]
              exact forwardSpentBranch_disabled env ct cv depth _ _ _ _ _ hdis

theorem traceForwardLoop_disabled (env : UTXOTracer.Env) (fuel : Nat)
    (s : UTXOTracer.FwdState) (hdis : s.electrs_disabled = true) :
    (UTXOTracer.traceForwardLoop env fuel s).electrs_disabled = true ∧
    (UTXOTracer.traceForwardLoop env fuel s).electrs_lookup_count =
      s.electrs_lookup_count :=
  traceForwardLoop_inv env
    (fun s' => s'.electrs_disabled = true ∧
      s'.electrs_lookup_count = s.electrs_lookup_count)
    (fun ct cv d s' h => ⟨(forwardVisit_disabled env ct cv d s' h.1).1,
      (forwardVisit_disabled env ct cv d s' h.1).2.trans h.2⟩)
    (fun s' q h => h) (fun s' w hl h => h) (fun s' n h => h) fuel s ⟨hdis, rfl⟩

theorem forwardSpentBranch_fail_disables (env : UTXOTracer.Env) (ct : String)
    (cv depth : Nat) (vs : ℤ) (addr : Option String) (sty : String) (cj : ℚ)
    (s : UTXOTracer.FwdState)
    (hguard : (env.electrsAvailable && pyTruthyStr addr &&
      decide (depth < s.result.max_depth) && !s.electrs_disabled) = true)
    (hf : env.findSpending ct cv = none)
    (hc : s.consecutive_electrs_failures = 2) :
    (UTXOTracer.forwardSpentBranch env ct cv depth vs addr sty cj s).electrs_disabled = true ∧
    UTXOTracer.electrsDisabledWarning 3 ∈
      (UTXOTracer.forwardSpentBranch env ct cv depth vs addr sty cj s).result.warnings ∧
    ∃ node, (UTXOTracer.forwardSpentBranch env ct cv depth vs addr sty cj s).result.nodes =
        s.result.nodes ++ [node] ∧
      node.txid = ct ∧ node.vout = cv ∧ node.status = UTXOStatus.spent ∧
      node.spent_by_txid = none := by
  unfold UTXOTracer.forwardSpentBranch
  rw [if_pos hguard]
  unfold UTXOTracer.forwardElectrsLookup
  rw [hf]
  dsimp only
  rw [if_pos (show s.consecutive_electrs_failures + 1 ≥
      UTXOTracer.MAX_CONSECUTIVE_ELECTRS_FAILURES by rw [hc]; decide)]
  refine ⟨rfl, ?_, _, rfl, rfl, rfl, rfl, rfl⟩
  rw [hc]
  exact List.mem_append_right _ (List.mem_singleton_self _)

theorem forwardSpentBranch_success_resets (env : UTXOTracer.Env) (ct : String)
    (cv depth : Nat) (vs : ℤ) (addr : Option String) (sty : String) (cj : ℚ)
    (s : UTXOTracer.FwdState) (stxid : String)
    (hguard : (env.electrsAvailable && pyTruthyStr addr &&
      decide (depth < s.result.max_depth) && !s.electrs_disabled) = true)
    (hf : env.findSpending ct cv = some stxid) :
    (UTXOTracer.forwardSpentBranch env ct cv depth vs addr sty cj
      s).consecutive_electrs_failures = 0 := by
  unfold UTXOTracer.forwardSpentBranch
  rw [if_pos hguard]
  unfold UTXOTracer.forwardElectrsLookup
  rw [hf]
  dsimp only
  cases env.getTx stxid with
  | none => rfl
  | some stx => rfl

theorem forwardSpentBranch_disabled_emits (env : UTXOTracer.Env) (ct : String)
    (cv depth : Nat) (vs : ℤ) (addr : Option String) (sty : String) (cj : ℚ)
    (s : UTXOTracer.FwdState) (hdis : s.electrs_disabled = true) :
    ∃ node, (UTXOTracer.forwardSpentBranch env ct cv depth vs addr sty cj s).result.nodes =
        s.result.nodes ++ [node] ∧
      node.txid = ct ∧ node.vout = cv ∧ node.status = UTXOStatus.spent ∧
      node.spent_by_txid = none := by
  unfold UTXOTracer.forwardSpentBranch
  rw [if_neg (by rw [hdis]; simp)]
  exact ⟨_, rfl, rfl, rfl, rfl, rfl⟩

theorem forwardFinalize_inv (env : UTXOTracer.Env) (s : UTXOTracer.FwdState)
    (h : FwdInv env s) : FwdInv env (UTXOTracer.forwardFinalize s) := by
  obtain ⟨f1, _, f3, f4, _, _⟩ := forwardFinalize_frame s
  exact ⟨by rw [f1]; exact h.1, by rw [f1, f4]; exact h.2.1, by rw [f3]; exact h.2.2⟩

theorem backwardFinalize_inv (env : UTXOTracer.Env) (s : UTXOTracer.BwdState)
    (h : BwdInv env s) : BwdInv env (UTXOTracer.backwardFinalize s) := by
  obtain ⟨f1, f2, f3, f4⟩ := backwardFinalize_frame s
  exact ⟨by rw [f2]; exact h.1, by rw [f1]; exact h.2.1, by rw [f1]; exact h.2.2.1,
    by rw [f1, f4]; exact h.2.2.2.1, by rw [f3]; exact h.2.2.2.2⟩

theorem traceForwardState_inv (env : UTXOTracer.Env) (txid : String)
    (vout max_depth fuel : Nat) :
    FwdInv env (UTXOTracer.traceForwardState env txid vout max_depth fuel) := by
  unfold UTXOTracer.traceForwardState
  dsimp only
  apply forwardFinalize_inv
  exact traceForwardLoop_inv env (FwdInv env)
    (fun ct cv d s h => forwardVisit_inv env ct cv d s h)
    (fun s q h => h) (fun s w hl h => h) (fun s n h => h) fuel _
    ⟨by simp, by simp, by simp⟩

theorem traceBackwardState_inv (env : UTXOTracer.Env) (txid : String)
    (max_depth fuel : Nat) :
    BwdInv env (UTXOTracer.traceBackwardState env txid max_depth fuel) := by
  unfold UTXOTracer.traceBackwardState
  dsimp only
  apply backwardFinalize_inv
  exact traceBackwardLoop_inv env (BwdInv env)
    (fun ct d s h => backwardVisit_inv env ct d s h)
    (fun s q h => h) (fun s w hl h => h) fuel _
    ⟨rfl, by simp, by simp, by simp, by simp⟩

/-! Claim theorems. -/

/-- C1.  `ElectrsClient.find_spending_tx` returns `none` exactly when
the source transaction cannot be fetched decoded, `vout` is out of
range, the output carries no address, or no history entry other than
the source spends `(txid, vout)`; otherwise it returns the first
history entry, in history order and skipping the source transaction,
whose fetched transaction has an input referencing `(txid, vout)` —
i.e. it coincides with the specification's algorithm. -/
theorem c1_find_spending_tx_follows_spec (env : ElectrsClient.Env) (txid : String) (vout : Nat) :
    ElectrsClient.find_spending_tx env txid vout =
      ElectrsClient.find_spending_tx_spec env txid vout := by
  unfold ElectrsClient.find_spending_tx ElectrsClient.find_spending_tx_spec
  cases env.getTransaction txid with
  | none => rfl
  | some tx =>
    dsimp only
    cases tx.vout[vout]? with
    | none => rfl
    | some output =>
      dsimp only
      by_cases ha : pyTruthyStr output.scriptPubKey.address
      · simp only [if_pos ha]
        by_cases hh : env.getHistory (output.scriptPubKey.address.getD "") = []
        · simp [hh]
        · simp [hh]
      · simp [ha]

/-- C2.  The engine's CoinJoin scorer agrees with the specification's
scoring table on every decoded transaction. -/
theorem c2_coinjoin_score_follows_table (tx : Tx) :
    UTXOTracer.calculate_coinjoin_score_fast tx = UTXOTracer.coinjoin_score_table tx := by
  unfold UTXOTracer.calculate_coinjoin_score_fast UTXOTracer.coinjoin_score_table
  by_cases h2 : tx.vout.length < 2
  · simp [h2]
  · set values := tx.vout.map (fun out => round8 out.value) with hv
    have hvne : values ≠ [] := by
      rw [hv, Ne, List.map_eq_nil_iff]
      intro h
      rw [h] at h2
      simp at h2
    have hck : ¬ counterKeys values = [] := by
      rw [counterKeys_eq_nil_iff]
      exact hvne
    simp only [if_neg h2, if_neg hck]
    by_cases h55 : tx.vout.length = 5 ∧ maxEqual values = 5
    · obtain ⟨h5o, h5m⟩ := h55
      have hlen5 : values.length = 5 := by rw [hv, List.length_map, h5o]
      obtain ⟨k, hkeys, hall, hcount⟩ := counter_all_eq_of_max_eq_length hlen5 h5m
      have hargmax : argmaxCount values = some k := by
        unfold argmaxCount
        rw [hkeys]
        simp [hcount, h5m]
      have hmemk : k ∈ values := mem_counterKeys.1 (hkeys ▸ List.mem_singleton_self k)
      have hany : (values.any fun v => decide (values.count v = 5) &&
          whirlpoolDenoms.any (fun d => decide (|v - d| < 1/10000))) =
          whirlpoolDenoms.any (fun d => decide (|k - d| < 1/10000)) := by
        cases hwd : whirlpoolDenoms.any (fun d => decide (|k - d| < 1/10000)) with
        | true =>
          rw [List.any_eq_true]
          exact ⟨k, hmemk, by rw [hcount, hwd]; simp⟩
        | false =>
          rw [List.any_eq_false]
          intro v hvm
          have hveq : v = k := hall v hvm
          subst hveq
          rw [hcount, hwd]
          simp
      rw [if_pos ⟨h5o, h5m⟩, hargmax, Option.getD_some]
      cases hwd : whirlpoolDenoms.any (fun d => decide (|k - d| < 1/10000)) with
      | true =>
        have hC : (values.any fun v => decide (List.count v values = 5) &&
            whirlpoolDenoms.any fun d => decide (|v - d| < 1/10000)) = true :=
          hany.trans hwd
        rw [if_pos rfl, if_pos ⟨h5o, h5m, hC⟩]
      | false =>
        have hC : ¬ (values.any fun v => decide (List.count v values = 5) &&
            whirlpoolDenoms.any fun d => decide (|v - d| < 1/10000)) = true := by
          rw [hany, hwd]
          simp
        rw [if_neg (show ¬ false = true by simp),
          if_neg (fun h => hC h.2.2), if_pos ⟨h5o, h5m⟩]
    · have hnc1 : ¬ (tx.vout.length = 5 ∧ maxEqual values = 5 ∧
          (values.any fun v => decide (values.count v = 5) &&
            whirlpoolDenoms.any (fun d => decide (|v - d| < 1/10000))) = true) :=
        fun h => h55 ⟨h.1, h.2.1⟩
      simp only [if_neg h55, if_neg hnc1, counterKeys_length_eq_dedup_length]

set_option maxRecDepth 100000 in
/-- C3 counterexample.  On a transaction with five equal non-Whirlpool
outputs the analyser's scorer (0.95) differs from the engine's scorer
(0.85), so the two CoinJoin score functions are not equal. -/
theorem c3_counterexample :
    KYCPrivacyTracer.calculate_coinjoin_score fiveEqualTx ≠
      UTXOTracer.calculate_coinjoin_score_fast fiveEqualTx := by
  with_unfolding_all decide

/-- C3 amended.  The analyser's per-transaction CoinJoin scorer follows
its own table — 0.95 for five equal outputs without any denomination
check, 0.90 for ten or more equal outputs, 0.75 for
`max_eq ≥ 5 ∧ n_in ≥ 3`, 0.50 for `max_eq ≥ 3 ∧ n_in ≥ 2`, no
low-uniqueness row — rather than the engine's table. -/
theorem c3_amended_analyser_score_follows_own_table (tx : Tx) :
    KYCPrivacyTracer.calculate_coinjoin_score tx = KYCPrivacyTracer.analyser_score_table tx := by
  unfold KYCPrivacyTracer.calculate_coinjoin_score KYCPrivacyTracer.analyser_score_table
  by_cases h2 : tx.vout.length < 2
  · simp [h2]
  · have hvne : tx.vout.map (fun out => round8 out.value) ≠ [] := by
      rw [Ne, List.map_eq_nil_iff]
      intro h
      rw [h] at h2
      simp at h2
    have hck : ¬ counterKeys (tx.vout.map (fun out => round8 out.value)) = [] := by
      rw [counterKeys_eq_nil_iff]
      exact hvne
    simp only [if_neg h2, if_neg hck]

/-- Weighted change-heuristic sums never exceed 0.8, so the 0.95 cap is
inactive and `is_change` may equivalently test the clamped
probability. -/
theorem change_pair_eq (S : ℚ) (h : S ≤ 4/5) :
    ((decide (S > 3/10), min S (19/20)) : Bool × ℚ) =
      (decide (min S (19/20) > 3/10), min S (19/20)) := by
  rw [min_eq_left (h.trans (by norm_num))]

/-- C7.  On every transaction, input-address set without the empty
string, and in-range output index, the change detector returns exactly
the specification's weighted table: probability `min(sum, 0.95)` of the
five weights and `is_change` exactly when the probability exceeds
0.3. -/
theorem c7_change_detector_follows_table (tx : Tx) (input_addresses : List String)
    (output_idx : Nat) (original_value : ℤ)
    (hidx : output_idx < tx.vout.length) (hempty : "" ∉ input_addresses) :
    KYCPrivacyTracer.detect_change_output tx input_addresses output_idx original_value =
      KYCPrivacyTracer.change_output_table tx input_addresses output_idx := by
  unfold KYCPrivacyTracer.detect_change_output KYCPrivacyTracer.change_output_table
  cases hout : tx.vout[output_idx]? with
  | none => rfl
  | some output =>
    dsimp only
    have h1 : (if pyTruthyStr output.scriptPubKey.address = true ∧
          output.scriptPubKey.address.getD "" ∈ input_addresses then (2:ℚ)/5 else 0) =
        (if output.scriptPubKey.address.any (fun a => decide (a ∈ input_addresses)) = true
          then (2:ℚ)/5 else 0) := by
      cases haddr : output.scriptPubKey.address with
      | none => simp [pyTruthyStr]
      | some a =>
        by_cases hae : a = ""
        · subst hae
          simp [pyTruthyStr, hempty]
        · by_cases hmem : a ∈ input_addresses
          · simp [pyTruthyStr, hae, hmem]
          · simp [pyTruthyStr, hae, hmem]
    rw [h1]
    exact change_pair_eq _ (by split_ifs <;> norm_num)

/-- C7 witness: the change detector agrees with the table on output 1
of `txA9` against input addresses `["AA"]`. -/
theorem c7_change_detector_follows_table_witness :
    KYCPrivacyTracer.detect_change_output txA9 ["AA"] 1 0 =
      KYCPrivacyTracer.change_output_table txA9 ["AA"] 1 :=
  c7_change_detector_follows_table txA9 ["AA"] 1 0 (by decide) (by decide)

/-- C4.  Adaptive Electrum degradation of `trace_forward`: (a) once
`electrs_disabled` is set, the remainder of the loop performs no
further Electrum lookups and stays disabled; (b) a failed lookup after
two prior consecutive failures disables Electrum, appends the warning,
and still emits the `spent` node (without a spender); (c) a successful
lookup resets the consecutive-failure counter to zero; (d) with
Electrum disabled a spent output still yields a `spent` node. -/
theorem c4_adaptive_degradation (env : UTXOTracer.Env) :
    (∀ fuel s, s.electrs_disabled = true →
      (UTXOTracer.traceForwardLoop env fuel s).electrs_disabled = true ∧
      (UTXOTracer.traceForwardLoop env fuel s).electrs_lookup_count =
        s.electrs_lookup_count) ∧
    (∀ ct cv depth vs addr sty cj s,
      (env.electrsAvailable && pyTruthyStr addr &&
        decide (depth < s.result.max_depth) && !s.electrs_disabled) = true →
      env.findSpending ct cv = none →
      s.consecutive_electrs_failures = 2 →
      (UTXOTracer.forwardSpentBranch env ct cv depth vs addr sty cj
        s).electrs_disabled = true ∧
      UTXOTracer.electrsDisabledWarning 3 ∈
        (UTXOTracer.forwardSpentBranch env ct cv depth vs addr sty cj
          s).result.warnings ∧
      ∃ node, (UTXOTracer.forwardSpentBranch env ct cv depth vs addr sty cj
          s).result.nodes = s.result.nodes ++ [node] ∧
        node.txid = ct ∧ node.vout = cv ∧ node.status = UTXOStatus.spent ∧
        node.spent_by_txid = none) ∧
    (∀ ct cv depth vs addr sty cj s stxid,
      (env.electrsAvailable && pyTruthyStr addr &&
        decide (depth < s.result.max_depth) && !s.electrs_disabled) = true →
      env.findSpending ct cv = some stxid →
      (UTXOTracer.forwardSpentBranch env ct cv depth vs addr sty cj
        s).consecutive_electrs_failures = 0) ∧
    (∀ ct cv depth vs addr sty cj s, s.electrs_disabled = true →
      ∃ node, (UTXOTracer.forwardSpentBranch env ct cv depth vs addr sty cj
          s).result.nodes = s.result.nodes ++ [node] ∧
        node.txid = ct ∧ node.vout = cv ∧ node.status = UTXOStatus.spent ∧
        node.spent_by_txid = none) :=
  ⟨fun fuel s h => traceForwardLoop_disabled env fuel s h,
   fun ct cv depth vs addr sty cj s hg hf hc =>
     forwardSpentBranch_fail_disables env ct cv depth vs addr sty cj s hg hf hc,
   fun ct cv depth vs addr sty cj s stxid hg hf =>
     forwardSpentBranch_success_resets env ct cv depth vs addr sty cj s stxid hg hf,
   fun ct cv depth vs addr sty cj s hd =>
     forwardSpentBranch_disabled_emits env ct cv depth vs addr sty cj s hd⟩

set_option maxRecDepth 100000 in
/-- C4 witness: the degradation behaviour at concrete environments and
mid-trace states. -/
theorem c4_adaptive_degradation_witness :
    ((UTXOTracer.traceForwardLoop env4 5 s4d).electrs_disabled = true ∧
      (UTXOTracer.traceForwardLoop env4 5 s4d).electrs_lookup_count =
        s4d.electrs_lookup_count) ∧
    ((UTXOTracer.forwardSpentBranch env4 "A" 1 1 30000000 (some "AA") "unknown" 0
        s4).electrs_disabled = true ∧
      UTXOTracer.electrsDisabledWarning 3 ∈
        (UTXOTracer.forwardSpentBranch env4 "A" 1 1 30000000 (some "AA") "unknown" 0
          s4).result.warnings ∧
      ∃ node, (UTXOTracer.forwardSpentBranch env4 "A" 1 1 30000000 (some "AA") "unknown" 0
          s4).result.nodes = s4.result.nodes ++ [node] ∧
        node.txid = "A" ∧ node.vout = 1 ∧ node.status = UTXOStatus.spent ∧
        node.spent_by_txid = none) ∧
    ((UTXOTracer.forwardSpentBranch env4s "A" 1 1 30000000 (some "AA") "unknown" 0
        s4).consecutive_electrs_failures = 0) ∧
    (∃ node, (UTXOTracer.forwardSpentBranch env4 "A" 1 1 30000000 (some "AA") "unknown" 0
        s4d).result.nodes = s4d.result.nodes ++ [node] ∧
      node.txid = "A" ∧ node.vout = 1 ∧ node.status = UTXOStatus.spent ∧
      node.spent_by_txid = none) :=
  ⟨(c4_adaptive_degradation env4).1 5 s4d rfl,
   (c4_adaptive_degradation env4).2.1 "A" 1 1 30000000 (some "AA") "unknown" 0 s4
     (by with_unfolding_all decide) rfl rfl,
   (c4_adaptive_degradation env4s).2.2.1 "A" 1 1 30000000 (some "AA") "unknown" 0 s4 "B"
     (by with_unfolding_all decide) rfl,
   (c4_adaptive_degradation env4).2.2.2 "A" 1 1 30000000 (some "AA") "unknown" 0 s4d rfl⟩

set_option maxRecDepth 100000 in
/-- C5 counterexample.  When the seed transaction cannot be fetched,
the pair is visited but no node is emitted, so `|nodes|` differs from
the number of visited pairs. -/
theorem c5_counterexample :
    ¬ ((UTXOTracer.traceForwardState envMissing "t0" 0 5 10).result.nodes.length =
       (UTXOTracer.traceForwardState envMissing "t0" 0 5 10).visited.length) := by
  have hn : (UTXOTracer.traceForwardState envMissing "t0" 0 5 10).result.nodes =
      [] := by with_unfolding_all rfl
  have hv : (UTXOTracer.traceForwardState envMissing "t0" 0 5 10).visited =
      [("t0", 0)] := by with_unfolding_all rfl
  intro h
  rw [hn, hv] at h
  simp at h

/-- C5 amended.  In every forward trace the emitted nodes carry
pairwise-distinct `(txid, vout)` pairs, all of them visited, so
`|nodes|` is at most (rather than equal to) the number of distinct
visited pairs; likewise for backward traces with txids.  (Visits that
hit the depth limit, a missing transaction, or an out-of-range vout
enter the visited set without emitting a node.) -/
theorem c5_amended_nodes_distinct_and_visited :
    (∀ (env : UTXOTracer.Env) (txid : String) (vout max_depth fuel : Nat),
      ((UTXOTracer.traceForwardState env txid vout max_depth fuel).result.nodes.map
          (fun n => (n.txid, n.vout))).Nodup ∧
      ((UTXOTracer.traceForwardState env txid vout max_depth fuel).result.nodes.map
          (fun n => (n.txid, n.vout))) ⊆
        (UTXOTracer.traceForwardState env txid vout max_depth fuel).visited ∧
      (UTXOTracer.traceForwardState env txid vout max_depth fuel).result.nodes.length ≤
        (UTXOTracer.traceForwardState env txid vout max_depth fuel).visited.length) ∧
    (∀ (env : UTXOTracer.Env) (txid : String) (max_depth fuel : Nat),
      ((UTXOTracer.traceBackwardState env txid max_depth fuel).result.nodes.map
          (fun n => n.txid)).Nodup ∧
      ((UTXOTracer.traceBackwardState env txid max_depth fuel).result.nodes.map
          (fun n => n.txid)) ⊆
        (UTXOTracer.traceBackwardState env txid max_depth fuel).visited ∧
      (UTXOTracer.traceBackwardState env txid max_depth fuel).result.nodes.length ≤
        (UTXOTracer.traceBackwardState env txid max_depth fuel).visited.length) := by
  constructor
  · intro env txid vout max_depth fuel
    obtain ⟨hd, hv, _⟩ := traceForwardState_inv env txid vout max_depth fuel
    have hsub : ((UTXOTracer.traceForwardState env txid vout max_depth
        fuel).result.nodes.map (fun n => (n.txid, n.vout))) ⊆
        (UTXOTracer.traceForwardState env txid vout max_depth fuel).visited :=
      fun p hp => hv p hp
    refine ⟨hd, hsub, ?_⟩
    calc (UTXOTracer.traceForwardState env txid vout max_depth fuel).result.nodes.length
        = ((UTXOTracer.traceForwardState env txid vout max_depth fuel).result.nodes.map
            (fun n => (n.txid, n.vout))).length := (List.length_map _ _).symm
      _ ≤ _ := (List.subperm_of_subset hd hsub).length_le
  · intro env txid max_depth fuel
    obtain ⟨_, _, hd, hv, _⟩ := traceBackwardState_inv env txid max_depth fuel
    have hsub : ((UTXOTracer.traceBackwardState env txid max_depth
        fuel).result.nodes.map (fun n => n.txid)) ⊆
        (UTXOTracer.traceBackwardState env txid max_depth fuel).visited :=
      fun t ht => hv t ht
    refine ⟨hd, hsub, ?_⟩
    calc (UTXOTracer.traceBackwardState env txid max_depth fuel).result.nodes.length
        = ((UTXOTracer.traceBackwardState env txid max_depth fuel).result.nodes.map
            (fun n => n.txid)).length := (List.length_map _ _).symm
      _ ≤ _ := (List.subperm_of_subset hd hsub).length_le

set_option maxRecDepth 100000 in
/-- C9 counterexample.  In the backward trace over `env9` the edge
`(A,1) → (B,·)` carries `value_sats = 0` instead of the consumed 0.3
BTC, and `to_vin = 7` (the input's sequence number) instead of the
consuming input index 0, so not every recorded edge carries the
consumed satoshi value and consuming input index. -/
theorem c9_counterexample :
    ¬ ∀ e ∈ (UTXOTracer.trace_backward env9 "B" 2 10).edges,
        edgeClaimCheck env9.getTx e = true := by
  have hE : (UTXOTracer.trace_backward env9 "B" 2 10).edges =
      [{ from_txid := "A", from_vout := 1, to_txid := "B", to_vin := 7, value_sats := 0 },
       { from_txid := "z", from_vout := 0, to_txid := "A", to_vin := 0, value_sats := 0 }] := by
    with_unfolding_all rfl
  have hC : edgeClaimCheck env9.getTx
      { from_txid := "A", from_vout := 1, to_txid := "B", to_vin := 7, value_sats := 0 } =
      false := by with_unfolding_all rfl
  intro h
  have h1 := h _ (by rw [hE]; exact List.mem_cons_self _ _)
  exact Bool.false_ne_true (hC.symm.trans h1)

/-- C9 amended.  Forward-trace edges do carry the consumed output's
satoshi value, with `to_vin` the first input of the spending
transaction referencing the consumed output (0 when the fetched
spending transaction lacks one); backward-trace edges instead always
carry `value_sats = 0` and use the referencing input's sequence number
as `to_vin`. -/
theorem c9_amended_edge_payloads :
    (∀ (env : UTXOTracer.Env) (txid : String) (vout max_depth fuel : Nat),
      ∀ e ∈ (UTXOTracer.trace_forward env txid vout max_depth fuel).edges,
        ForwardEdgeOk env.getTx e) ∧
    (∀ (env : UTXOTracer.Env) (txid : String) (max_depth fuel : Nat),
      ∀ e ∈ (UTXOTracer.trace_backward env txid max_depth fuel).edges,
        BackwardEdgeOk env.getTx e) :=
  ⟨fun env txid vout max_depth fuel e he =>
    (traceForwardState_inv env txid vout max_depth fuel).2.2 e he,
   fun env txid max_depth fuel e he =>
    (traceBackwardState_inv env txid max_depth fuel).2.2.2.2 e he⟩

set_option maxRecDepth 100000 in
/-- C9 witness: the concrete forward edge of `envF9` and backward edge
of `env9` satisfy the amended payload description. -/
theorem c9_amended_edge_payloads_witness :
    ForwardEdgeOk envF9.getTx
      { from_txid := "A", from_vout := 1, to_txid := "B", to_vin := 0,
        value_sats := 30000000 } ∧
    BackwardEdgeOk env9.getTx
      { from_txid := "A", from_vout := 1, to_txid := "B", to_vin := 7,
        value_sats := 0 } :=
  ⟨c9_amended_edge_payloads.1 envF9 "A" 1 2 3 _ (by
      have hE : (UTXOTracer.trace_forward envF9 "A" 1 2 3).edges =
          [{ from_txid := "A", from_vout := 1, to_txid := "B", to_vin := 0,
             value_sats := 30000000 }] := by with_unfolding_all rfl
      rw [hE]
      exact List.mem_cons_self _ _),
   c9_amended_edge_payloads.2 env9 "B" 2 3 _ (by
      have hE : (UTXOTracer.trace_backward env9 "B" 2 3).edges =
          [{ from_txid := "A", from_vout := 1, to_txid := "B", to_vin := 7, value_sats := 0 },
           { from_txid := "z", from_vout := 0, to_txid := "A", to_vin := 0, value_sats := 0 }] := by
        with_unfolding_all rfl
      rw [hE]
      exact List.mem_cons_self _ _)⟩

/-- C10.  Every node emitted by a backward trace has status `spent` or
`coinbase` (never `unspent`) and `vout` fixed at 0, and the backward
result's `unspent_endpoints` list is always empty. -/
theorem c10_backward_nodes_never_unspent (env : UTXOTracer.Env) (txid : String)
    (max_depth fuel : Nat) :
    (UTXOTracer.trace_backward env txid max_depth fuel).unspent_endpoints = [] ∧
    ∀ n ∈ (UTXOTracer.trace_backward env txid max_depth fuel).nodes,
      n.vout = 0 ∧ (n.status = UTXOStatus.spent ∨ n.status = UTXOStatus.coinbase) :=
  ⟨(traceBackwardState_inv env txid max_depth fuel).1,
   fun n hn => (traceBackwardState_inv env txid max_depth fuel).2.1 n hn⟩

set_option maxRecDepth 100000 in
/-- C10 witness: the backward trace over `env9` emits the aggregate
node for `B` at `vout = 0` with status `spent`. -/
theorem c10_backward_nodes_never_unspent_witness :
    ({ txid := "B", vout := 0, value_sats := 25000000, address := none,
       script_type := "transaction", status := UTXOStatus.spent,
       depth := 0 } : UTXONode).vout = 0 ∧
    (({ txid := "B", vout := 0, value_sats := 25000000, address := none,
        script_type := "transaction", status := UTXOStatus.spent,
        depth := 0 } : UTXONode).status = UTXOStatus.spent ∨
      ({ txid := "B", vout := 0, value_sats := 25000000, address := none,
         script_type := "transaction", status := UTXOStatus.spent,
         depth := 0 } : UTXONode).status = UTXOStatus.coinbase) :=
  (c10_backward_nodes_never_unspent env9 "B" 2 10).2 _ (by
    have hN : (UTXOTracer.trace_backward env9 "B" 2 10).nodes =
        [{ txid := "B", vout := 0, value_sats := 25000000, address := none,
           script_type := "transaction", status := UTXOStatus.spent, depth := 0 },
         { txid := "A", vout := 0, value_sats := 40000000, address := none,
           script_type := "transaction", status := UTXOStatus.spent, depth := 1 }] := by
      with_unfolding_all rfl
    rw [hN]
    exact List.mem_cons_self _ _)

namespace KYCPrivacyTracer

theorem all_append_one {α : Type} {P : α → Prop} {l : List α} {x : α}
    (hl : ∀ a ∈ l, P a) (hx : P x) : ∀ a ∈ l ++ [x], P a := by
  intro a ha
  rcases List.mem_append.1 ha with h | h
  · exact hl a h
  · rw [List.mem_singleton.1 h]
    exact hx

theorem coldSats_append_cold (l : List ProbableDestination) (d : ProbableDestination)
    (hd : d.trail_status = TrailStatus.cold) :
    coldSats (l ++ [d]) = coldSats l + d.value_sats := by
  simp [coldSats, List.filter_append, List.filter_cons, hd]

theorem coldSats_append_other (l : List ProbableDestination) (d : ProbableDestination)
    (hd : ¬ d.trail_status = TrailStatus.cold) :
    coldSats (l ++ [d]) = coldSats l := by
  simp [coldSats, List.filter_append, List.filter_cons, hd]

theorem kycEmit_inv (env : Env) (f : Frame) (address : Option String) (value_sats : ℤ)
    (ccj : Nat) (cpath : List PathNode) (s : KState) (h : KycInv s) :
    KycInv (kycEmit env f address value_sats ccj cpath s) := by
  obtain ⟨h1, h2⟩ := h
  unfold kycEmit
  by_cases hc : ccj ≥ MAX_COINJOINS_BEFORE_COLD
  · rw [if_pos hc]
    dsimp only
    refine ⟨all_append_one h1 ?_, ?_⟩
    · simp [destLevelOk]
    · rw [coldSats_append_cold _ _ rfl, ← h2]
  · rw [if_neg hc]
    by_cases hun : env.isUnspent f.txid f.vout = true
    · rw [if_pos hun]
      dsimp only
      refine ⟨all_append_one h1 ?_, ?_⟩
      · simp [destLevelOk]
      · rw [coldSats_append_other _ _ (by simp)]
        exact h2
    · rw [if_neg hun]
      by_cases he : (env.electrsAvailable && pyTruthyStr address) = true
      · rw [if_pos he]
        cases hfs : find_spending_tx env f.txid f.vout (address.getD "") with
        | none =>
          dsimp only
          refine ⟨all_append_one h1 ?_, ?_⟩
          · simp [destLevelOk]
          · rw [coldSats_append_other _ _ (by simp)]
            exact h2
        | some stxid =>
          dsimp only
          cases hst : env.getTx stxid with
          | none =>
            dsimp only
            exact ⟨h1, h2⟩
          | some stx =>
            dsimp only
            exact ⟨h1, h2⟩
      · rw [if_neg he]
        dsimp only
        refine ⟨all_append_one h1 ?_, ?_⟩
        · simp [destLevelOk]
        · rw [coldSats_append_other _ _ (by simp)]
          exact h2

theorem kycVisitTx_inv (env : Env) (f : Frame) (tx : Tx) (s : KState) (h : KycInv s) :
    KycInv (kycVisitTx env f tx s) := by
  obtain ⟨h1, h2⟩ := h
  unfold kycVisitTx
  cases ho : tx.vout[f.vout]? with
  | none => exact ⟨h1, h2⟩
  | some output =>
    dsimp only
    refine kycEmit_inv _ _ _ _ _ _ _ ?_
    split_ifs with hcj
    · exact ⟨h1, h2⟩
    · exact ⟨h1, h2⟩

theorem kycVisitBody_inv (env : Env) (f : Frame) (s : KState) (h : KycInv s) :
    KycInv (kycVisitBody env f s) := by
  obtain ⟨h1, h2⟩ := h
  unfold kycVisitBody
  by_cases hd : f.depth > s.result.trace_depth
  · rw [if_pos hd]
    by_cases hp : f.path = []
    · rw [if_pos hp]
      exact ⟨h1, h2⟩
    · rw [if_neg hp]
      dsimp only
      refine ⟨all_append_one h1 ?_, ?_⟩
      · simp [destLevelOk]
      · rw [coldSats_append_other _ _ (by simp)]
        exact h2
  · rw [if_neg hd]
    cases hg : env.getTx f.txid with
    | none => exact ⟨h1, h2⟩
    | some tx =>
      dsimp only
      exact kycVisitTx_inv env f tx _ ⟨h1, h2⟩

theorem kycVisit_inv (env : Env) (f : Frame) (s : KState) (h : KycInv s) :
    KycInv (kycVisit env f s) := by
  obtain ⟨h1, h2⟩ := h
  unfold kycVisit
  by_cases hv : (f.txid, f.vout) ∈ s.visited
  · rw [if_pos hv]
    exact ⟨h1, h2⟩
  · rw [if_neg hv]
    exact kycVisitBody_inv env f _ ⟨h1, h2⟩

theorem kyc_run_inv (env : Env) (fuel : Nat) (s0 : KState) (h0 : KycInv s0) :
    KycInv (kycLoop env fuel s0) :=
  kycLoop_inv env KycInv (kycVisit_inv env) (fun _ _ h => h) (fun _ _ h => h) fuel s0 h0

theorem insertByConfidence_perm (d : ProbableDestination) (l : List ProbableDestination) :
    List.Perm (insertByConfidence d l) (d :: l) := by
  induction l with
  | nil => exact List.Perm.refl _
  | cons x xs ih =>
    unfold insertByConfidence
    by_cases hx : x.confidence_score ≥ d.confidence_score
    · rw [if_pos hx]
      exact (List.Perm.cons x ih).trans (List.Perm.swap d x xs)
    · rw [if_neg hx]

theorem sortDestinations_perm_aux (l acc : List ProbableDestination) :
    List.Perm (l.foldl (fun acc d => insertByConfidence d acc) acc) (acc ++ l) := by
  induction l generalizing acc with
  | nil => simp
  | cons x xs ih =>
    rw [List.foldl_cons]
    refine (ih (insertByConfidence x acc)).trans ?_
    refine ((insertByConfidence_perm x acc).append_right xs).trans ?_
    rw [List.append_cons]
    exact ((List.perm_append_singleton x acc).symm.append_right xs)

theorem sortDestinations_perm (l : List ProbableDestination) :
    List.Perm (sortDestinations l) l := by
  have h := sortDestinations_perm_aux l []
  simpa [sortDestinations] using h

theorem coldSats_perm {l₁ l₂ : List ProbableDestination} (h : List.Perm l₁ l₂) :
    coldSats l₁ = coldSats l₂ :=
  List.Perm.sum_eq ((h.filter _).map _)

theorem trace_kyc_destinations_inv (env : Env) (ext dest preset : String) (fuel : Nat) :
    (∀ d ∈ (trace_kyc_withdrawal env ext dest preset fuel).probable_destinations,
        destLevelOk d = true) ∧
    (trace_kyc_withdrawal env ext dest preset fuel).total_untraceable_sats =
      coldSats (trace_kyc_withdrawal env ext dest preset fuel).probable_destinations := by
  unfold trace_kyc_withdrawal
  cases hg : env.getTx ext with
  | none => exact ⟨fun d hd => absurd hd (List.not_mem_nil d), rfl⟩
  | some tx =>
    dsimp only
    cases hs : findSeed tx dest with
    | none => exact ⟨fun d hd => absurd hd (List.not_mem_nil d), rfl⟩
    | some pr =>
      obtain ⟨sv, sval⟩ := pr
      dsimp only
      refine ⟨?_, ?_⟩
      · intro d hd
        exact (kyc_run_inv env fuel _
            ⟨fun d hd => absurd hd (List.not_mem_nil d), rfl⟩).1 d
          ((sortDestinations_perm _).mem_iff.1 hd)
      · exact (kyc_run_inv env fuel _
            ⟨fun d hd => absurd hd (List.not_mem_nil d), rfl⟩).2.trans
          (coldSats_perm (sortDestinations_perm _)).symm

theorem overall_privacy_le_100 (r : KYCTraceResult) :
    calculate_overall_privacy r ≤ 100 := by
  unfold calculate_overall_privacy
  by_cases hr : r.probable_destinations = []
  · rw [if_pos hr]
  · rw [if_neg hr]
    exact min_le_right _ _

theorem overall_privacy_nonneg (r : KYCTraceResult)
    (hu : 0 ≤ r.total_untraceable_sats) : 0 ≤ calculate_overall_privacy r := by
  unfold calculate_overall_privacy
  by_cases hr : r.probable_destinations = []
  · rw [if_pos hr]
    norm_num
  · rw [if_neg hr]
    refine le_min (add_nonneg (add_nonneg (add_nonneg ?_ ?_) ?_) ?_) (by norm_num)
    · split_ifs with hop
      · refine mul_nonneg (div_nonneg ?_ ?_) (by norm_num)
        · exact_mod_cast hu
        · exact_mod_cast le_of_lt hop
      · exact le_refl 0
    · split_ifs <;> norm_num
    · split_ifs <;> norm_num
    · refine le_min (mul_nonneg (div_nonneg ?_ ?_) (by norm_num)) (by norm_num)
      · refine List.sum_nonneg ?_
        intro x hx
        obtain ⟨d, hdmem, hdx⟩ := List.mem_map.1 hx
        rw [← hdx]
        exact Nat.cast_nonneg _
      · exact Nat.cast_nonneg _

theorem privacy_f1_eq (u : ℚ) (oz : ℤ) (ho : 0 ≤ oz) :
    (if oz > 0 then u / (oz : ℚ) * 40 else 0) = 40 * (u / (oz : ℚ)) := by
  by_cases hop : oz > 0
  · rw [if_pos hop]
    ring
  · rw [if_neg hop]
    have h0 : oz = 0 := le_antisymm (not_lt.1 hop) ho
    rw [h0]
    norm_num

theorem privacy_f3_eq (l : List ProbableDestination) :
    (if l = [] then (20 : ℚ) else if l.length = 1 then 5 else 0) =
    (if l.length = 0 then (20 : ℚ) else if l.length = 1 then 5 else 0) := by
  by_cases hf : l = []
  · rw [if_pos hf, if_pos (by simp [hf])]
  · rw [if_neg hf, if_neg (fun hlen => hf (List.length_eq_zero.1 hlen))]

theorem privacy_f4_eq (a : ℚ) : min (a * 2) 10 = min 10 (2 * a) := by
  rw [min_comm, mul_comm]

theorem calc_overall_privacy_eq_table (r : KYCTraceResult)
    (hu : r.total_untraceable_sats = coldSats r.probable_destinations)
    (ho : 0 ≤ r.original_value_sats) :
    calculate_overall_privacy r = overall_privacy_table r := by
  unfold calculate_overall_privacy overall_privacy_table
  by_cases hr : r.probable_destinations = []
  · rw [if_pos hr, if_pos hr]
  · rw [if_neg hr, if_neg hr]
    have hne : r.probable_destinations.length ≠ 0 :=
      fun hlen => hr (List.length_eq_zero.1 hlen)
    have hmax : max r.probable_destinations.length 1 = r.probable_destinations.length :=
      Nat.max_eq_left (Nat.one_le_iff_ne_zero.2 hne)
    simp only [hmax, ← hu, privacy_f1_eq _ _ ho, privacy_f3_eq, privacy_f4_eq]

end KYCPrivacyTracer

set_option maxRecDepth 100000 in
/-- C6: the claim is false as stated.  It asserts that every
`ProbableDestination` produced by `trace_kyc_withdrawal` carries
`confidence_level` equal to the threshold mapping of its clamped
`confidence_score`, including `lost` destinations; but the `env6` run
(whose spending lookup fails after one hop) records a `lost`
destination with score `0.162`, which the mapping sends to
`negligible`, while the stored level is the hardcoded `low`
(`kyc_trace.py` line 693). -/
theorem c6_counterexample :
    ¬ ∀ d ∈ (KYCPrivacyTracer.trace_kyc_withdrawal env6 "E" "D" "standard"
        3).probable_destinations,
      d.confidence_level =
        KYCPrivacyTracer.get_confidence_level (min (max d.confidence_score 0) 1) := by
  intro h
  have hD : (KYCPrivacyTracer.trace_kyc_withdrawal env6 "E" "D" "standard"
      3).probable_destinations = [kycLostDest] := by
    with_unfolding_all rfl
  have h1 := h kycLostDest (by rw [hD]; exact List.mem_cons_self _ _)
  have h2 : KYCPrivacyTracer.get_confidence_level
      (min (max kycLostDest.confidence_score 0) 1) =
      KYCPrivacyTracer.ConfidenceLevel.negligible := by
    with_unfolding_all decide
  rw [h2] at h1
  exact absurd h1 (by decide)

/-- C6 (amended): every `ProbableDestination` produced by
`trace_kyc_withdrawal` has `confidence_level` equal to the threshold
mapping of its `confidence_score`, except that a destination whose
`trail_status` is `lost` may instead carry the hardcoded level `low`
(the failed-lookup branch, `kyc_trace.py` lines 684-699). -/
theorem c6_amended_confidence_levels (env : KYCPrivacyTracer.Env)
    (ext dest preset : String) (fuel : Nat) :
    ∀ d ∈ (KYCPrivacyTracer.trace_kyc_withdrawal env ext dest preset
        fuel).probable_destinations,
      KYCPrivacyTracer.destLevelOk d = true :=
  fun d hd =>
    (KYCPrivacyTracer.trace_kyc_destinations_inv env ext dest preset fuel).1 d hd

set_option maxRecDepth 100000 in
/-- C6 amended witness: the destination recorded by the `env6` run
passes the amended level check. -/
theorem c6_amended_confidence_levels_witness :
    KYCPrivacyTracer.destLevelOk kycLostDest = true := by
  have hD : (KYCPrivacyTracer.trace_kyc_withdrawal env6 "E" "D" "standard"
      3).probable_destinations = [kycLostDest] := by
    with_unfolding_all rfl
  exact c6_amended_confidence_levels env6 "E" "D" "standard" 3 kycLostDest
    (by rw [hD]; exact List.mem_cons_self _ _)

set_option maxRecDepth 100000 in
/-- C8: the claim is false as stated.  It asserts that the privacy
score equals `100` whenever the destination set is empty; but when the
exchange transaction cannot be fetched (`envK8`), `trace_kyc_withdrawal`
returns early with no destinations, a score of `0`, and the rating
`"unknown"` (`kyc_trace.py` lines 489-496). -/
theorem c8_counterexample :
    ¬ ((KYCPrivacyTracer.trace_kyc_withdrawal envK8 "E" "D" "standard"
          3).probable_destinations = [] →
        (KYCPrivacyTracer.trace_kyc_withdrawal envK8 "E" "D" "standard"
          3).overall_privacy_score = 100) := by
  intro h
  have h1 : (KYCPrivacyTracer.trace_kyc_withdrawal envK8 "E" "D" "standard"
      3).probable_destinations = [] := by
    with_unfolding_all rfl
  have h2 := h h1
  rw [show (KYCPrivacyTracer.trace_kyc_withdrawal envK8 "E" "D" "standard"
      3).overall_privacy_score = 0 from by with_unfolding_all rfl] at h2
  exact absurd h2 (by norm_num)

/-- C8 (amended): for every run of `trace_kyc_withdrawal`, the
untraceable total is the satoshi sum over destinations whose trail went
cold; the privacy score is nonnegative whenever that total is (and is
always at most 100); and when the seed output is found and the original
value is nonnegative, the score equals the specification's formula and
the rating follows the bands.  When the seed is not found the function
returns early with no destinations, score `0` and rating `"unknown"`
instead of the empty-set score `100`. -/
theorem c8_amended_privacy_score (env : KYCPrivacyTracer.Env)
    (ext dest preset : String) (fuel : Nat) :
    (KYCPrivacyTracer.trace_kyc_withdrawal env ext dest preset
        fuel).total_untraceable_sats =
      KYCPrivacyTracer.coldSats
        (KYCPrivacyTracer.trace_kyc_withdrawal env ext dest preset
          fuel).probable_destinations ∧
    (0 ≤ (KYCPrivacyTracer.trace_kyc_withdrawal env ext dest preset
        fuel).total_untraceable_sats →
      0 ≤ (KYCPrivacyTracer.trace_kyc_withdrawal env ext dest preset
        fuel).overall_privacy_score) ∧
    (KYCPrivacyTracer.trace_kyc_withdrawal env ext dest preset
        fuel).overall_privacy_score ≤ 100 ∧
    (kycSeedOk env ext dest = true →
      0 ≤ (KYCPrivacyTracer.trace_kyc_withdrawal env ext dest preset
        fuel).original_value_sats →
      (KYCPrivacyTracer.trace_kyc_withdrawal env ext dest preset
          fuel).overall_privacy_score =
        KYCPrivacyTracer.overall_privacy_table
          (KYCPrivacyTracer.trace_kyc_withdrawal env ext dest preset fuel) ∧
      (KYCPrivacyTracer.trace_kyc_withdrawal env ext dest preset
          fuel).privacy_rating =
        KYCPrivacyTracer.get_privacy_rating
          (KYCPrivacyTracer.trace_kyc_withdrawal env ext dest preset
            fuel).overall_privacy_score) ∧
    (kycSeedOk env ext dest = false →
      (KYCPrivacyTracer.trace_kyc_withdrawal env ext dest preset
        fuel).probable_destinations = [] ∧
      (KYCPrivacyTracer.trace_kyc_withdrawal env ext dest preset
        fuel).overall_privacy_score = 0 ∧
      (KYCPrivacyTracer.trace_kyc_withdrawal env ext dest preset
        fuel).privacy_rating = "unknown") := by
  refine ⟨(KYCPrivacyTracer.trace_kyc_destinations_inv env ext dest preset fuel).2,
    ?_, ?_, ?_, ?_⟩
  · unfold KYCPrivacyTracer.trace_kyc_withdrawal
    cases hg : env.getTx ext with
    | none =>
      intro _
      exact le_refl 0
    | some tx =>
      dsimp only
      cases hs : KYCPrivacyTracer.findSeed tx dest with
      | none =>
        intro _
        exact le_refl 0
      | some pr =>
        obtain ⟨sv, sval⟩ := pr
        intro hu0
        exact KYCPrivacyTracer.overall_privacy_nonneg _ hu0
  · unfold KYCPrivacyTracer.trace_kyc_withdrawal
    cases hg : env.getTx ext with
    | none => exact (by norm_num : (0 : ℚ) ≤ 100)
    | some tx =>
      dsimp only
      cases hs : KYCPrivacyTracer.findSeed tx dest with
      | none => exact (by norm_num : (0 : ℚ) ≤ 100)
      | some pr =>
        obtain ⟨sv, sval⟩ := pr
        exact KYCPrivacyTracer.overall_privacy_le_100 _
  · unfold KYCPrivacyTracer.trace_kyc_withdrawal kycSeedOk
    cases hg : env.getTx ext with
    | none =>
      intro hfalse
      exact absurd hfalse (by simp)
    | some tx =>
      dsimp only
      cases hs : KYCPrivacyTracer.findSeed tx dest with
      | none =>
        intro hfalse
        exact absurd hfalse (by simp)
      | some pr =>
        obtain ⟨sv, sval⟩ := pr
        intro _ ho
        refine ⟨?_, rfl⟩
        exact KYCPrivacyTracer.calc_overall_privacy_eq_table _
          ((KYCPrivacyTracer.kyc_run_inv env fuel _
              ⟨fun d hd => absurd hd (List.not_mem_nil d), rfl⟩).2.trans
            (KYCPrivacyTracer.coldSats_perm
              (KYCPrivacyTracer.sortDestinations_perm _)).symm)
          ho
  · unfold KYCPrivacyTracer.trace_kyc_withdrawal kycSeedOk
    cases hg : env.getTx ext with
    | none =>
      intro _
      exact ⟨rfl, rfl, rfl⟩
    | some tx =>
      dsimp only
      cases hs : KYCPrivacyTracer.findSeed tx dest with
      | none =>
        intro _
        exact ⟨rfl, rfl, rfl⟩
      | some pr =>
        obtain ⟨sv, sval⟩ := pr
        intro hfalse
        exact absurd hfalse (by simp)

set_option maxRecDepth 100000 in
/-- C8 amended witness: the seeded `env6` run has a nonnegative score
that matches the specification's formula, and its rating follows the
bands. -/
theorem c8_amended_privacy_score_witness :
    0 ≤ (KYCPrivacyTracer.trace_kyc_withdrawal env6 "E" "D" "standard"
      3).overall_privacy_score ∧
    (KYCPrivacyTracer.trace_kyc_withdrawal env6 "E" "D" "standard"
        3).overall_privacy_score =
      KYCPrivacyTracer.overall_privacy_table
        (KYCPrivacyTracer.trace_kyc_withdrawal env6 "E" "D" "standard" 3) ∧
    (KYCPrivacyTracer.trace_kyc_withdrawal env6 "E" "D" "standard"
        3).privacy_rating =
      KYCPrivacyTracer.get_privacy_rating
        (KYCPrivacyTracer.trace_kyc_withdrawal env6 "E" "D" "standard"
          3).overall_privacy_score := by
  have h := c8_amended_privacy_score env6 "E" "D" "standard" 3
  have hu : 0 ≤ (KYCPrivacyTracer.trace_kyc_withdrawal env6 "E" "D" "standard"
      3).total_untraceable_sats := by
    rw [show (KYCPrivacyTracer.trace_kyc_withdrawal env6 "E" "D" "standard"
        3).total_untraceable_sats = 0 from by with_unfolding_all rfl]
  have ho : 0 ≤ (KYCPrivacyTracer.trace_kyc_withdrawal env6 "E" "D" "standard"
      3).original_value_sats := by
    rw [show (KYCPrivacyTracer.trace_kyc_withdrawal env6 "E" "D" "standard"
        3).original_value_sats = 100000000 from by with_unfolding_all rfl]
    norm_num
  have hseed : kycSeedOk env6 "E" "D" = true := by with_unfolding_all rfl
  exact ⟨h.2.1 hu, (h.2.2.2.1 hseed ho).1, (h.2.2.2.1 hseed ho).2⟩

end ChainForensics
